import Mathlib

/-!
Verification of the LinkPub EPUB-generation code paths.

This file gives a shallow embedding of the EPUB builders and their helper
functions from the LinkPub repository (server.js and the two browser
scripts), together with theorems checking the specification's claims about
them.  String templates are transcribed byte-for-byte from the source's
template literals; JavaScript interpolation slots become explicit string
concatenation.  Nondeterministic inputs of the source (Math.random driving
generateUuid, the build date) are passed as explicit parameters.
-/

set_option maxRecDepth 20000
set_option linter.unusedVariables false

namespace LinkPub

/-! ## Substring search primitives

The source uses String.prototype.includes, .replace and .endsWith, and the
claims talk about the contents of generated XML.  We work over lists of
characters; Occurs pat s says pat appears as a contiguous substring of s,
and firstOcc computes the index of the leftmost occurrence.
-/

/-- pat occurs as a contiguous substring of s. -/
def Occurs (pat s : List Char) : Prop := ∃ u v : List Char, s = u ++ pat ++ v

/-- Index of the leftmost occurrence of pat in s, if any. -/
def firstOcc (pat : List Char) : List Char → Option Nat
  | [] => if pat = [] then some 0 else none
  | c :: t => if pat.isPrefixOf (c :: t) then some 0 else (firstOcc pat t).map (· + 1)

/-- Boolean substring test, mirroring JavaScript's String.prototype.includes. -/
def containsSub (pat s : List Char) : Bool := (firstOcc pat s).isSome

theorem occurs_iff_exists_prefix_drop {pat s : List Char} :
    Occurs pat s ↔ ∃ j, pat <+: s.drop j := by
  constructor
  · rintro ⟨u, v, rfl⟩
    refine ⟨u.length, ?_⟩
    rw [List.append_assoc, List.drop_left]
    exact ⟨v, rfl⟩
  · rintro ⟨j, t, ht⟩
    exact ⟨s.take j, t, by rw [List.append_assoc, ht, List.take_append_drop]⟩

theorem occurs_cons {pat : List Char} {c : Char} {t : List Char} :
    Occurs pat (c :: t) ↔ pat <+: (c :: t) ∨ Occurs pat t := by
  constructor
  · rintro ⟨u, v, hu⟩
    cases u with
    | nil => exact Or.inl ⟨v, by simpa using hu.symm⟩
    | cons a u' =>
      simp only [List.cons_append] at hu
      exact Or.inr ⟨u', v, (List.cons_eq_cons.mp hu).2⟩
  · rintro (⟨v, hv⟩ | ⟨u, v, hu⟩)
    · exact ⟨[], v, hv.symm⟩
    · exact ⟨c :: u, v, by simp [hu]⟩

theorem firstOcc_isSome_iff {pat s : List Char} :
    (firstOcc pat s).isSome = true ↔ Occurs pat s := by
  induction s with
  | nil =>
    by_cases h : pat = [] <;>
      simp [firstOcc, h, Occurs, List.append_eq_nil]
  | cons c t ih =>
    by_cases h : pat.isPrefixOf (c :: t)
    · simp only [firstOcc, if_pos h, Option.isSome_some, true_iff]
      exact occurs_cons.mpr (Or.inl (List.isPrefixOf_iff_prefix.mp h))
    · have hnp : ¬ pat <+: (c :: t) := fun hp => h (List.isPrefixOf_iff_prefix.mpr hp)
      simp only [firstOcc, if_neg h]
      have hm : ((firstOcc pat t).map (· + 1)).isSome = (firstOcc pat t).isSome := by
        cases firstOcc pat t <;> rfl
      rw [hm, ih, occurs_cons]
      tauto

theorem containsSub_eq_true_iff {pat s : List Char} :
    containsSub pat s = true ↔ Occurs pat s := firstOcc_isSome_iff

theorem containsSub_eq_false_iff {pat s : List Char} :
    containsSub pat s = false ↔ ¬ Occurs pat s := by
  rw [← containsSub_eq_true_iff]
  cases containsSub pat s <;> simp

instance (pat s : List Char) : Decidable (Occurs pat s) :=
  decidable_of_iff (containsSub pat s = true) containsSub_eq_true_iff

/-- Splitting a prefix of an append: either it fits inside the left part, or
it swallows the left part whole. -/
theorem prefix_append_split {p u v : List Char} (h : p <+: u ++ v) :
    p <+: u ∨ (u <+: p ∧ p.drop u.length <+: v) := by
  rcases Nat.le_total p.length u.length with hle | hle
  · exact Or.inl (List.prefix_of_prefix_length_le h (List.prefix_append u v) hle)
  · have hu : u <+: p :=
      List.prefix_of_prefix_length_le (List.prefix_append u v) h hle
    rcases hu with ⟨p', hp'⟩
    refine Or.inr ⟨⟨p', hp'⟩, ?_⟩
    rw [← hp', List.drop_left]
    rcases h with ⟨t, ht⟩
    rw [← hp', List.append_assoc] at ht
    exact ⟨t, List.append_cancel_left ht⟩

/-- An occurrence inside an append either lies in a part or straddles the
boundary, in which case a nonempty proper prefix of the pattern is a suffix
of the left part and the matching remainder is a prefix of the right part. -/
theorem occurs_append_cases {pat u v : List Char} (h : Occurs pat (u ++ v)) :
    Occurs pat u ∨ Occurs pat v ∨
      ∃ k, 0 < k ∧ k < pat.length ∧ pat.take k <:+ u ∧ pat.drop k <+: v := by
  rcases h with ⟨x, y, hxy⟩
  have hx : x ++ pat <+: u ++ v := ⟨y, hxy.symm⟩
  rcases Nat.lt_or_ge x.length u.length with hxu | hxu
  · rcases (Nat.lt_or_ge u.length (x.length + pat.length)).symm with hfit | hcross
    · -- occurrence fits inside u
      have hfits : x ++ pat <+: u := by
        refine List.prefix_of_prefix_length_le hx (List.prefix_append u v) ?_
        simpa using hfit
      rcases hfits with ⟨z, hz⟩
      exact Or.inl ⟨x, z, by rw [← hz, List.append_assoc]⟩
    · -- straddles the boundary
      have hxp : x <+: u :=
        List.prefix_of_prefix_length_le
          ⟨pat ++ y, by rw [← List.append_assoc]; exact hxy.symm⟩
          (List.prefix_append u v) (Nat.le_of_lt hxu)
      rcases hxp with ⟨u', hu'⟩
      set k := u.length - x.length with hk
      have hk0 : 0 < k := Nat.sub_pos_of_lt hxu
      have hklen : k < pat.length := by omega
      have hulen : u'.length = k := by
        have := congrArg List.length hu'
        simp at this
        omega
      have hupre : u' <+: pat := by
        have h1 : x ++ u' <+: x ++ pat := by
          rw [hu']
          refine List.prefix_of_prefix_length_le (List.prefix_append u v) hx ?_
          simp
          omega
        rcases h1 with ⟨t, ht⟩
        rw [List.append_assoc] at ht
        exact ⟨t, List.append_cancel_left ht⟩
      have hutake : u' = pat.take k := by
        rw [List.prefix_iff_eq_take.mp hupre, hulen]
      have hu2 : x ++ pat.take k = u := by rw [← hutake]; exact hu'
      have h2 : (x ++ pat.take k) ++ (pat.drop k ++ y) = u ++ v := by
        rw [List.append_assoc, ← List.append_assoc (pat.take k),
          List.take_append_drop, ← List.append_assoc]
        exact hxy.symm
      rw [hu2] at h2
      have hveq : pat.drop k ++ y = v := List.append_cancel_left h2
      exact Or.inr (Or.inr ⟨k, hk0, hklen, ⟨x, hu2⟩, ⟨y, hveq⟩⟩)
  · -- occurrence lies in v
    have hux : u <+: x :=
      List.prefix_of_prefix_length_le (List.prefix_append u v)
        ⟨pat ++ y, by rw [← List.append_assoc]; exact hxy.symm⟩ hxu
    rcases hux with ⟨x', hx'⟩
    refine Or.inr (Or.inl ⟨x', y, ?_⟩)
    have h2 : u ++ v = u ++ (x' ++ pat ++ y) := by
      rw [hxy, ← hx']
      simp [List.append_assoc]
    exact List.append_cancel_left h2

/-- The pattern has no nonempty proper prefix that is also a suffix
(no self-overlap); decidable, checked by computation for the concrete
patterns we search for. -/
def BorderFree (pat : List Char) : Prop :=
  ∀ k, k < pat.length → 0 < k → ¬ (pat.drop k <+: pat)

instance (pat : List Char) : Decidable (BorderFree pat) := by
  unfold BorderFree
  infer_instance

/-- No occurrence in an append, given none in either part and no straddling
occurrence. -/
theorem noOccurs_append {pat u v : List Char}
    (hu : ¬ Occurs pat u) (hv : ¬ Occurs pat v)
    (hspan : ∀ k, 0 < k → k < pat.length → ¬ (pat.take k <:+ u) ∨ ¬ (pat.drop k <+: v)) :
    ¬ Occurs pat (u ++ v) := by
  intro h
  rcases occurs_append_cases h with h1 | h2 | ⟨k, hk0, hklen, hsuf, hpre⟩
  · exact hu h1
  · exact hv h2
  · rcases hspan k hk0 hklen with hns | hnp
    · exact hns hsuf
    · exact hnp hpre

/-- Any nonempty prefix of the pattern contains the pattern's head. -/
theorem head_mem_take {pat : List Char} {c : Char} (hh : pat.head? = some c)
    {k : Nat} (hk : 0 < k) : c ∈ pat.take k := by
  cases pat with
  | nil => simp at hh
  | cons a t =>
    cases k with
    | zero => omega
    | succ k => simp_all [List.take_succ_cons, List.head?]

/-- If the head character of the pattern does not appear in u, the pattern
does not occur in u. -/
theorem noOccurs_of_head_not_mem {pat u : List Char} {c : Char}
    (hh : pat.head? = some c) (hc : c ∉ u) : ¬ Occurs pat u := by
  rintro ⟨x, y, rfl⟩
  refine hc ?_
  have hcp : c ∈ pat := by
    cases pat with
    | nil => simp at hh
    | cons a t => simp_all [List.head?]
  simp [hcp]

/-- If the head character of the pattern does not appear in u, no nonempty
prefix of the pattern is a suffix of u. -/
theorem spanFree_of_head_not_mem {pat u : List Char} {c : Char}
    (hh : pat.head? = some c) (hc : c ∉ u) :
    ∀ k, 0 < k → k < pat.length → ¬ (pat.take k <:+ u) := by
  intro k hk _ hsuf
  exact hc (hsuf.subset (head_mem_take hh hk))

/-- Decidable left-side span check for concrete segments. -/
def SpanFreeSuffix (pat u : List Char) : Prop :=
  ∀ k, k < pat.length → 0 < k → ¬ (pat.take k <:+ u)

instance (pat u : List Char) : Decidable (SpanFreeSuffix pat u) := by
  unfold SpanFreeSuffix
  infer_instance

/-- Chaining form of noOccurs_append using a left-side span check. -/
theorem noOccurs_append_left {pat u v : List Char}
    (hu : ¬ Occurs pat u) (hsp : SpanFreeSuffix pat u)
    (hv : ¬ Occurs pat v) : ¬ Occurs pat (u ++ v) :=
  noOccurs_append hu hv (fun k hk0 hklen => Or.inl (hsp k hklen hk0))

/-- The leftmost occurrence of a border-free pattern in xs ++ pat ++ tail is
exactly at position xs.length, provided the pattern does not occur in xs. -/
theorem firstOcc_append_pat {pat : List Char} (xs tail : List Char)
    (hne : pat ≠ []) (hb : BorderFree pat) (hocc : ¬ Occurs pat xs) :
    firstOcc pat (xs ++ pat ++ tail) = some xs.length := by
  induction xs with
  | nil =>
    simp only [List.nil_append]
    cases pat with
    | nil => exact absurd rfl hne
    | cons c p =>
      have hpre : (c :: p).isPrefixOf (c :: (p ++ tail)) = true :=
        List.isPrefixOf_iff_prefix.mpr (by simp)
      simp [firstOcc, hpre]
  | cons a xs ih =>
    have hocc' : ¬ Occurs pat xs := fun h => hocc (occurs_cons.mpr (Or.inr h))
    have hnp : ¬ pat.isPrefixOf (a :: (xs ++ pat ++ tail)) = true := by
      intro hpre
      have hpre' : pat <+: (a :: xs) ++ (pat ++ tail) := by
        simpa [List.append_assoc] using List.isPrefixOf_iff_prefix.mp hpre
      rcases prefix_append_split hpre' with h1 | ⟨h2, h3⟩
      · exact hocc (occurs_cons.mpr (Or.inl h1))
      · rcases Nat.lt_or_ge (a :: xs).length pat.length with hlt | hge
        · -- straddling: pat.drop (a :: xs).length would be a border of pat
          have hk0 : 0 < (a :: xs).length := by simp
          have hdp : pat.drop (a :: xs).length <+: pat := by
            rcases prefix_append_split h3 with h4 | ⟨h5, _⟩
            · exact h4
            · have hlen := h5.length_le
              simp at hlen
              omega
          exact hb (a :: xs).length hlt hk0 hdp
        · -- pat would be all of a :: xs, hence occur in it
          have heq : a :: xs = pat :=
            h2.sublist.eq_of_length (Nat.le_antisymm h2.length_le hge)
          exact hocc ⟨[], [], by simp [heq]⟩
    simp only [List.cons_append, firstOcc]
    rw [if_neg (by simpa using hnp)]
    show Option.map (· + 1) (firstOcc pat (xs ++ pat ++ tail)) = some (a :: xs).length
    rw [ih hocc']
    rfl

/-! ## Decimal rendering and parsing

JavaScript template literals render numbers in decimal; navPoint playOrder,
chapter numbers and the page-count estimate all reach the XML this way.
natStr builds the decimal digit list; parseDec reads one back.
-/

/-- The decimal digit character for d < 10. -/
def decChar (d : Nat) : Char := "0123456789".data.getD d '0'

/-- Fuel-driven construction of the decimal digits of n, most significant
digit first; fuel n + 1 always suffices. -/
def decAux : Nat → Nat → List Char → List Char
  | 0, _, acc => acc
  | fuel + 1, n, acc =>
    if n < 10 then decChar n :: acc else decAux fuel (n / 10) (decChar (n % 10) :: acc)

/-- Decimal representation of a natural number, as JavaScript renders
numbers inside template literals. -/
def natStr (n : Nat) : List Char := decAux (n + 1) n []

/-- String form of natStr. -/
def natStrS (n : Nat) : String := String.mk (natStr n)

theorem decAux_fuel {f1 f2 n : Nat} (acc : List Char) (h1 : n < f1) (h2 : n < f2) :
    decAux f1 n acc = decAux f2 n acc := by
  induction n using Nat.strong_induction_on generalizing f1 f2 acc with
  | _ n ih =>
    match f1, f2 with
    | f1 + 1, f2 + 1 =>
      simp only [decAux]
      by_cases h : n < 10
      · rw [if_pos h, if_pos h]
      · rw [if_neg h, if_neg h]
        have hd : n / 10 < n := Nat.div_lt_self (by omega) (by omega)
        exact ih (n / 10) hd _ (by omega) (by omega)

theorem decAux_acc {n : Nat} (acc : List Char) :
    decAux (n + 1) n acc = decAux (n + 1) n [] ++ acc := by
  induction n using Nat.strong_induction_on generalizing acc with
  | _ n ih =>
    simp only [decAux]
    by_cases h : n < 10
    · rw [if_pos h, if_pos h]
      rfl
    · rw [if_neg h, if_neg h]
      have hd : n / 10 < n := Nat.div_lt_self (by omega) (by omega)
      rw [decAux_fuel (decChar (n % 10) :: acc) hd (Nat.lt_succ_self _),
        decAux_fuel (decChar (n % 10) :: []) hd (Nat.lt_succ_self _),
        ih (n / 10) hd (decChar (n % 10) :: acc), ih (n / 10) hd (decChar (n % 10) :: [])]
      simp

/-- Recursive characterisation of natStr. -/
theorem natStr_eq (n : Nat) :
    natStr n = if n < 10 then [decChar n] else natStr (n / 10) ++ [decChar (n % 10)] := by
  unfold natStr
  simp only [decAux]
  by_cases h : n < 10
  · rw [if_pos h, if_pos h]
  · rw [if_neg h, if_neg h]
    have hd : n / 10 < n := Nat.div_lt_self (by omega) (by omega)
    rw [decAux_fuel (decChar (n % 10) :: []) hd (Nat.lt_succ_self _)]
    exact decAux_acc _

theorem decChar_isDigit {d : Nat} (h : d < 10) : (decChar d).isDigit = true := by
  interval_cases d <;> decide

theorem decChar_val {d : Nat} (h : d < 10) : (decChar d).toNat - 48 = d := by
  interval_cases d <;> decide

theorem natStr_digits (n : Nat) : ∀ c ∈ natStr n, c.isDigit = true := by
  induction n using Nat.strong_induction_on with
  | _ n ih =>
    rw [natStr_eq]
    by_cases h : n < 10
    · rw [if_pos h]
      intro c hc
      simp only [List.mem_singleton] at hc
      subst hc
      exact decChar_isDigit h
    · rw [if_neg h]
      intro c hc
      rcases List.mem_append.mp hc with h1 | h2
      · exact ih (n / 10) (Nat.div_lt_self (by omega) (by omega)) c h1
      · simp only [List.mem_singleton] at h2
        subst h2
        exact decChar_isDigit (Nat.mod_lt n (by omega))

theorem natStr_ne_nil (n : Nat) : natStr n ≠ [] := by
  rw [natStr_eq]
  by_cases h : n < 10 <;> simp [h]

/-- Decimal parser: fold the digit values left to right. -/
def parseDec (l : List Char) : Nat := l.foldl (fun a c => 10 * a + (c.toNat - 48)) 0

theorem parseDec_natStr (n : Nat) : parseDec (natStr n) = n := by
  induction n using Nat.strong_induction_on with
  | _ n ih =>
    rw [natStr_eq]
    by_cases h : n < 10
    · rw [if_pos h]
      show 10 * 0 + ((decChar n).toNat - 48) = n
      rw [Nat.mul_zero, Nat.zero_add]
      exact decChar_val h
    · rw [if_neg h]
      unfold parseDec
      rw [List.foldl_append]
      show 10 * ((natStr (n / 10)).foldl (fun a c => 10 * a + (c.toNat - 48)) 0)
          + ((decChar (n % 10)).toNat - 48) = n
      rw [show ((natStr (n / 10)).foldl (fun a c => 10 * a + (c.toNat - 48)) 0)
          = parseDec (natStr (n / 10)) from rfl]
      rw [ih (n / 10) (Nat.div_lt_self (by omega) (by omega)),
        decChar_val (Nat.mod_lt n (by omega))]
      omega

theorem takeWhile_append_all {p : Char → Bool} {u v : List Char}
    (h : ∀ c ∈ u, p c = true) : (u ++ v).takeWhile p = u ++ v.takeWhile p := by
  induction u with
  | nil => simp
  | cons a t ih =>
    rw [List.cons_append, List.takeWhile_cons, if_pos (h a (by simp)), List.cons_append,
      ih (fun c hc => h c (by simp [hc]))]

/-- Parse the decimal number immediately following the first occurrence of
pat in s (used to read playOrder and page-count attributes out of the
generated XML). -/
def parseNatAfter (pat s : List Char) : Option Nat :=
  (firstOcc pat s).map (fun i => parseDec ((s.drop (i + pat.length)).takeWhile Char.isDigit))

theorem parseNatAfter_spec {pat : List Char} (P : List Char) (n : Nat) (Q : List Char)
    (hne : pat ≠ []) (hb : BorderFree pat) (hP : ¬ Occurs pat P)
    (hQ : ∀ c, Q.head? = some c → c.isDigit = false) :
    parseNatAfter pat (P ++ pat ++ (natStr n ++ Q)) = some n := by
  unfold parseNatAfter
  rw [firstOcc_append_pat P (natStr n ++ Q) hne hb hP]
  simp only [Option.map_some']
  congr 1
  have hdrop : (P ++ pat ++ (natStr n ++ Q)).drop (P.length + pat.length)
      = natStr n ++ Q := by
    rw [show P.length + pat.length = (P ++ pat).length by simp, List.drop_left]
  rw [hdrop, takeWhile_append_all (natStr_digits n)]
  have hQ' : Q.takeWhile Char.isDigit = [] := by
    cases Q with
    | nil => rfl
    | cons c t =>
      rw [List.takeWhile_cons, if_neg (by simp [hQ c rfl])]
  rw [hQ', List.append_nil, parseDec_natStr]

/-! ## Extracting the first h1 element

h1Of returns the text strictly between the first occurrence of the opening
h1 tag and the next closing h1 tag, i.e. the rendered h1 heading of an
XHTML chapter document.
-/

def h1OpenTag : List Char := "<h1>".data

def h1CloseTag : List Char := "</h1>".data

def h1Of (s : List Char) : Option (List Char) :=
  match firstOcc h1OpenTag s with
  | none => none
  | some i =>
    (firstOcc h1CloseTag (s.drop (i + 4))).map (fun j => (s.drop (i + 4)).take j)

/-- Reading back the first h1 heading: if the document is
P ++ "<h1>" ++ e ++ "</h1>" ++ rest with no h1 open tag in P and no angle
bracket in e, the extracted heading is exactly e. -/
theorem h1Of_spec (P e rest : List Char) (hP : ¬ Occurs h1OpenTag P) (he : '<' ∉ e) :
    h1Of (P ++ h1OpenTag ++ (e ++ h1CloseTag ++ rest)) = some e := by
  unfold h1Of
  rw [show (P ++ h1OpenTag ++ (e ++ h1CloseTag ++ rest))
      = P ++ h1OpenTag ++ ((e ++ h1CloseTag) ++ rest) from rfl]
  rw [firstOcc_append_pat P ((e ++ h1CloseTag) ++ rest) (by decide) (by decide) hP]
  have hdrop : (P ++ h1OpenTag ++ ((e ++ h1CloseTag) ++ rest)).drop (P.length + 4)
      = e ++ h1CloseTag ++ rest := by
    rw [show P.length + 4 = (P ++ h1OpenTag).length by simp [h1OpenTag], List.drop_left]
  simp only
  rw [hdrop]
  have hocc_e : ¬ Occurs h1CloseTag e :=
    noOccurs_of_head_not_mem (show h1CloseTag.head? = some '<' from rfl) he
  rw [firstOcc_append_pat e rest (by decide) (by decide) hocc_e]
  simp only [Option.map_some']
  rw [show e ++ h1CloseTag ++ rest = e ++ (h1CloseTag ++ rest) from (List.append_assoc e _ _),
    List.take_left]

/-! ## JavaScript values and the escaping helpers

escapeXml (server.js, inside generateCollectionEpubForApi) and escapeHtml
(browser script part_001) both start with the guard
"if (!text || typeof text !== 'string') return ''".  JSVal models the
values that guard distinguishes.
-/

/-- A JavaScript value reaching the escaping helpers: a string or one of
the non-string values their guard clause turns into the empty string. -/
inductive JSVal where
  | str (s : String)
  | nullV
  | undef
  | num (n : Int)
  | boolV (b : Bool)
deriving DecidableEq

/-- An absent object field reads as undefined in JavaScript. -/
def jsOfOpt : Option String → JSVal
  | none => JSVal.undef
  | some s => JSVal.str s

/-- Global single-character replacement, text.replace(/c/g, r). -/
def replaceAllChar (c : Char) (r : List Char) (l : List Char) : List Char :=
  (l.map (fun x => if x = c then r else [x])).flatten

/-- The replacement chain of escapeXml from server.js: ampersand first,
then the angle brackets, then the quotes. -/
def escapeXmlData (l : List Char) : List Char :=
  replaceAllChar '\'' "&apos;".data
    (replaceAllChar '"' "&quot;".data
      (replaceAllChar '>' "&gt;".data
        (replaceAllChar '<' "&lt;".data
          (replaceAllChar '&' "&amp;".data l))))

/-- escapeXml from server.js (used by generateCollectionEpubForApi):
empty string for falsy or non-string input, otherwise the five successive
global replacements. -/
def escapeXml : JSVal → String
  | JSVal.str s => if s = "" then "" else String.mk (escapeXmlData s.data)
  | _ => ""

/-- One text-node character as serialized by the DOM's innerHTML getter:
the ampersand, the angle brackets and the non-breaking space become
character references; everything else (quotes included) stays itself. -/
def domTextEntity (c : Char) : List Char :=
  if c = '&' then "&amp;".data
  else if c = '<' then "&lt;".data
  else if c = '>' then "&gt;".data
  else if c = '\u00A0' then "&nbsp;".data
  else [c]

/-- escapeHtml from the browser script (part_001): the same guard as
escapeXml, then div.textContent = text; return div.innerHTML, i.e. HTML
text-node serialization of the string. -/
def escapeHtml : JSVal → String
  | JSVal.str s => if s = "" then "" else String.mk ((s.data.map domTextEntity).flatten)
  | _ => ""

/-- The per-character XML entity substitution the spec describes for
escapeForXml: the five markup-significant characters become entities. -/
def xmlEntityOfChar (c : Char) : List Char :=
  if c = '&' then "&amp;".data
  else if c = '<' then "&lt;".data
  else if c = '>' then "&gt;".data
  else if c = '"' then "&quot;".data
  else if c = '\'' then "&apos;".data
  else [c]

theorem replaceAllChar_append (c : Char) (r u v : List Char) :
    replaceAllChar c r (u ++ v) = replaceAllChar c r u ++ replaceAllChar c r v := by
  simp [replaceAllChar]

theorem escapeXmlData_append (u v : List Char) :
    escapeXmlData (u ++ v) = escapeXmlData u ++ escapeXmlData v := by
  simp [escapeXmlData, replaceAllChar_append]

theorem escapeXmlData_singleton (c : Char) : escapeXmlData [c] = xmlEntityOfChar c := by
  by_cases h1 : c = '&'
  · subst h1; decide
  by_cases h2 : c = '<'
  · subst h2; decide
  by_cases h3 : c = '>'
  · subst h3; decide
  by_cases h4 : c = '"'
  · subst h4; decide
  by_cases h5 : c = '\''
  · subst h5; decide
  simp [escapeXmlData, replaceAllChar, xmlEntityOfChar, h1, h2, h3, h4, h5]

/-- The sequential replacement chain acts like the single-pass entity map:
escaping the ampersand first means entities are never re-escaped. -/
theorem escapeXmlData_eq_join (l : List Char) :
    escapeXmlData l = (l.map xmlEntityOfChar).flatten := by
  induction l with
  | nil => rfl
  | cons c t ih =>
    rw [show c :: t = [c] ++ t from rfl, escapeXmlData_append, ih, escapeXmlData_singleton]
    simp

theorem xmlEntityOfChar_no_angle (c : Char) :
    '<' ∉ xmlEntityOfChar c ∧ '>' ∉ xmlEntityOfChar c := by
  unfold xmlEntityOfChar
  split_ifs with h1 h2 h3 h4 h5
  · subst h1; exact ⟨by decide, by decide⟩
  · subst h2; exact ⟨by decide, by decide⟩
  · subst h3; exact ⟨by decide, by decide⟩
  · subst h4; exact ⟨by decide, by decide⟩
  · subst h5; exact ⟨by decide, by decide⟩
  · refine ⟨?_, ?_⟩
    · intro hh
      simp only [List.mem_singleton] at hh
      exact h2 hh.symm
    · intro hh
      simp only [List.mem_singleton] at hh
      exact h3 hh.symm

theorem domTextEntity_no_angle (c : Char) :
    '<' ∉ domTextEntity c ∧ '>' ∉ domTextEntity c := by
  unfold domTextEntity
  split_ifs with h1 h2 h3 h4
  · subst h1; exact ⟨by decide, by decide⟩
  · subst h2; exact ⟨by decide, by decide⟩
  · subst h3; exact ⟨by decide, by decide⟩
  · subst h4; exact ⟨by decide, by decide⟩
  · refine ⟨?_, ?_⟩
    · intro hh
      simp only [List.mem_singleton] at hh
      exact h2 hh.symm
    · intro hh
      simp only [List.mem_singleton] at hh
      exact h3 hh.symm

theorem escapeXmlData_no_lt (l : List Char) : '<' ∉ escapeXmlData l := by
  rw [escapeXmlData_eq_join]
  intro hmem
  rcases List.mem_flatten.mp hmem with ⟨piece, hp, hc⟩
  rcases List.mem_map.mp hp with ⟨c, _, rfl⟩
  exact (xmlEntityOfChar_no_angle c).1 hc

theorem escapeXmlData_no_gt (l : List Char) : '>' ∉ escapeXmlData l := by
  rw [escapeXmlData_eq_join]
  intro hmem
  rcases List.mem_flatten.mp hmem with ⟨piece, hp, hc⟩
  rcases List.mem_map.mp hp with ⟨c, _, rfl⟩
  exact (xmlEntityOfChar_no_angle c).2 hc

theorem escapeXml_data_no_lt (v : JSVal) : '<' ∉ (escapeXml v).data := by
  cases v with
  | str s =>
    by_cases h : s = ""
    · simp [escapeXml, h]
    · simpa [escapeXml, h] using escapeXmlData_no_lt s.data
  | nullV => simp [escapeXml]
  | undef => simp [escapeXml]
  | num n => simp [escapeXml]
  | boolV b => simp [escapeXml]

theorem escapeHtml_data_no_lt (v : JSVal) : '<' ∉ (escapeHtml v).data := by
  cases v with
  | str s =>
    by_cases h : s = ""
    · simp [escapeHtml, h]
    · simp only [escapeHtml, h, if_neg]
      intro hmem
      rcases List.mem_flatten.mp hmem with ⟨piece, hp, hc⟩
      rcases List.mem_map.mp hp with ⟨c, _, rfl⟩
      exact (domTextEntity_no_angle c).1 hc
  | nullV => simp [escapeHtml]
  | undef => simp [escapeHtml]
  | num n => simp [escapeHtml]
  | boolV b => simp [escapeHtml]

/-! ## Filename sanitisation (browser scripts) -/

/-- The ASCII whitespace characters matched by the regex class backslash-s
in sanitizeFilename. -/
def jsWhitespace (c : Char) : Bool :=
  c = ' ' || c = '\t' || c = '\n' || c = '\r' || c = '\x0B' || c = '\x0C'

/-- Characters kept by the first replacement of part_001's sanitizeFilename,
the class [a-z0-9 whitespace hyphen underscore], case-insensitive. -/
def sanitizeKeep (c : Char) : Bool :=
  ('a' ≤ c && c ≤ 'z') || ('A' ≤ c && c ≤ 'Z') || ('0' ≤ c && c ≤ '9')
    || jsWhitespace c || c = '-' || c = '_'

/-- Collapse every whitespace run to a single underscore
(the second replacement of sanitizeFilename). -/
def collapseWsAux : Bool → List Char → List Char
  | _, [] => []
  | prevWs, c :: t =>
    if jsWhitespace c then
      (if prevWs then collapseWsAux true t else '_' :: collapseWsAux true t)
    else c :: collapseWsAux false t

/-- sanitizeFilename from the browser script part_001: strip characters
outside the kept class, collapse whitespace runs to one underscore,
lowercase, truncate to 50 characters.  There is no fallback for an empty
result. -/
def sanitizeFilenameP1 (filename : String) : String :=
  String.mk (((collapseWsAux false (filename.data.filter sanitizeKeep)).map Char.toLower).take 50)

/-- sanitizeFilename from the older browser script part_002: every
character outside [a-z0-9] (case-insensitive) becomes an underscore, then
lowercase; no truncation. -/
def sanitizeFilenameP2 (filename : String) : String :=
  String.mk ((filename.data.map (fun c =>
    if ('a' ≤ c && c ≤ 'z') || ('A' ≤ c && c ≤ 'Z') || ('0' ≤ c && c ≤ '9') then c
    else '_')).map Char.toLower)

/-! ## UUID generation -/

/-- Map with the element's position, as the callback of Array.map or of a
global regex replace receives it. -/
def mapIdxFrom (f : Nat → α → β) : Nat → List α → List β
  | _, [] => []
  | i, a :: t => f i a :: mapIdxFrom f (i + 1) t

theorem mem_mapIdxFrom {f : Nat → α → β} {i : Nat} {l : List α} {b : β}
    (h : b ∈ mapIdxFrom f i l) : ∃ j a, a ∈ l ∧ b = f j a := by
  induction l generalizing i with
  | nil => simp [mapIdxFrom] at h
  | cons a t ih =>
    rcases List.mem_cons.mp h with h1 | h1
    · exact ⟨i, a, by simp, h1⟩
    · rcases ih h1 with ⟨j, a', ha', hb⟩
      exact ⟨j, a', by simp [ha'], hb⟩

theorem length_mapIdxFrom (f : Nat → α → β) (i : Nat) (l : List α) :
    (mapIdxFrom f i l).length = l.length := by
  induction l generalizing i with
  | nil => rfl
  | cons a t ih => simp [mapIdxFrom, ih]

/-- The hexadecimal digit character for d < 16. -/
def hexChar (d : Nat) : Char := "0123456789abcdef".data.getD d 'f'

/-- The replacement template of generateUuid / generateUUID. -/
def uuidTemplate : List Char := "xxxxxxxx-xxxx-4xxx-yxxx-xxxxxxxxxxxx".data

/-- generateUuid from server.js (identical generateUUID in the browser
scripts): each x in the template becomes a random hex digit r, each y
becomes (r AND 3) OR 8.  The stream of random draws Math.random()*16|0 is
passed in as r, indexed by template position. -/
def generateUuid (r : Nat → Nat) : String :=
  String.mk (mapIdxFrom (fun i c =>
    if c = 'x' then hexChar (r i % 16)
    else if c = 'y' then hexChar (r i % 16 % 4 + 8)
    else c) 0 uuidTemplate)

theorem hexChar_mem {d : Nat} (h : d < 16) : hexChar d ∈ "0123456789abcdef".data := by
  interval_cases d <;> decide

/-- Every character of a generated UUID is a lowercase hex digit, a
hyphen, or the literal 4 of the template. -/
theorem generateUuid_chars (r : Nat → Nat) :
    ∀ c ∈ (generateUuid r).data, c ∈ "0123456789abcdef-".data := by
  intro c hc
  rcases mem_mapIdxFrom hc with ⟨j, a, ha, rfl⟩
  have hsub : ∀ x ∈ "0123456789abcdef".data, x ∈ "0123456789abcdef-".data := by decide
  by_cases hx : a = 'x'
  · rw [if_pos hx]
    exact hsub _ (hexChar_mem (Nat.mod_lt _ (by omega)))
  by_cases hy : a = 'y'
  · rw [if_neg hx, if_pos hy]
    exact hsub _ (hexChar_mem (by omega))
  · rw [if_neg hx, if_neg hy]
    have htempl : ∀ x ∈ uuidTemplate, x = 'x' ∨ x = 'y' ∨ x ∈ "0123456789abcdef-".data := by
      decide
    rcases htempl a ha with h | h | h
    · exact absurd h hx
    · exact absurd h hy
    · exact h

/-- A character with no membership in a covering character set does not
occur in the list. -/
theorem not_mem_of_charset {l S : List Char} {c₀ : Char}
    (hSub : ∀ c ∈ l, c ∈ S) (h : c₀ ∉ S) : c₀ ∉ l :=
  fun hc => h (hSub c₀ hc)

/-! ## Articles and archive entries -/

/-- An extracted article as the builders receive it.  The optional fields
model properties that may be absent on the JavaScript object (absent reads
as undefined). -/
structure Article where
  title : Option String
  content : String
  excerpt : Option String
  siteName : Option String
  url : Option String
  wordCount : Option Nat
deriving DecidableEq

/-- article.wordCount || 1000: JavaScript's OR falls back to 1000 for an
absent or zero word count. -/
def wordCountOr1000 (a : Article) : Nat :=
  match a.wordCount with
  | some w => if w = 0 then 1000 else w
  | none => 1000

/-- Compression method of an archive entry.  The builders never pass a
compression option and JSZip's generateAsync stores entries uncompressed
(STORE) unless told otherwise, so every entry of these archives is stored. -/
inductive ZipCompression where
  | store
  | deflate
deriving DecidableEq

/-- One entry of the JSZip archive, in insertion order: zip.file adds a
file entry, zip.folder adds a directory entry; generateAsync writes the
entries in this order. -/
structure ZipEntry where
  name : String
  content : String
  isDir : Bool
  compression : ZipCompression
deriving DecidableEq

/-- zip.file name content (no per-file options given). -/
def zfile (n c : String) : ZipEntry := ⟨n, c, false, ZipCompression.store⟩

/-- zip.folder name. -/
def zdir (n : String) : ZipEntry := ⟨n, "", true, ZipCompression.store⟩

/-- META-INF/container.xml, identical in all three builders. -/
def containerXml : String :=
  "<?xml version=\"1.0\"?>\n<container version=\"1.0\" xmlns=\"urn:oasis:names:tc:opendocument:xmlns:container\">\n    <rootfiles>\n        <rootfile full-path=\"OEBPS/content.opf\" media-type=\"application/oebps-package+xml\"/>\n    </rootfiles>\n</container>"

/-- The per-chapter manifest items, identical in the three builders:
articles.map((article, index) => item chapter(index+1)), joined below. -/
def chapterManifestItems (articles : List Article) : List String :=
  mapIdxFrom (fun index _ =>
    "<item id=\"chapter" ++ natStrS (index + 1) ++ "\" href=\"chapter" ++ natStrS (index + 1)
      ++ ".html\" media-type=\"application/xhtml+xml\"/>") 0 articles

/-- The per-chapter spine items, identical in the three builders. -/
def chapterSpineItems (articles : List Article) : List String :=
  mapIdxFrom (fun index _ =>
    "<itemref idref=\"chapter" ++ natStrS (index + 1) ++ "\"/>") 0 articles

/-- The name of chapter i + 1's file. -/
def chapterName (i : Nat) : String := "OEBPS/chapter" ++ natStrS (i + 1) ++ ".html"

/-! ## generateCollectionEpubForApi (server.js) -/

/-- content.opf of the API builder.  description is interpolated only when
truthy (a nonempty string). -/
def contentOpfApi (articles : List Article) (title author description : String)
    (uuid date : String) : String :=
  "<?xml version=\"1.0\" encoding=\"UTF-8\"?>\n<package xmlns=\"http://www.idpf.org/2007/opf\" unique-identifier=\"BookId\" version=\"2.0\">\n    <metadata xmlns:dc=\"http://purl.org/dc/elements/1.1/\" xmlns:opf=\"http://www.idpf.org/2007/opf\">\n        <dc:identifier id=\"BookId\">"
    ++ uuid
    ++ "</dc:identifier>\n        <dc:title>"
    ++ escapeXml (JSVal.str title)
    ++ "</dc:title>\n        <dc:creator>"
    ++ escapeXml (JSVal.str author)
    ++ "</dc:creator>\n        <dc:language>en</dc:language>\n        <dc:date>"
    ++ date
    ++ "</dc:date>\n        "
    ++ (if description ≠ "" then
        "<dc:description>" ++ escapeXml (JSVal.str description) ++ "</dc:description>"
      else "")
    ++ "\n    </metadata>\n    <manifest>\n        <item id=\"ncx\" href=\"toc.ncx\" media-type=\"application/x-dtbncx+xml\"/>\n        "
    ++ String.intercalate "\n        " (chapterManifestItems articles)
    ++ "\n    </manifest>\n    <spine toc=\"ncx\">\n        "
    ++ String.intercalate "\n        " (chapterSpineItems articles)
    ++ "\n    </spine>\n</package>"

/-- One navPoint of the API builder's toc.ncx: playOrder is index + 1. -/
def navPointApi (index : Nat) (article : Article) : String :=
  "\n        <navPoint id=\"navpoint-" ++ natStrS (index + 1) ++ "\" "
    ++ "playOrder=\"" ++ natStrS (index + 1)
    ++ "\">\n            <navLabel>\n                <text>"
    ++ escapeXml (jsOfOpt article.title)
    ++ "</text>\n            </navLabel>\n            <content src=\"chapter"
    ++ natStrS (index + 1) ++ ".html\"/>\n        </navPoint>"

/-- The navPoints array of the API builder (joined with '' into the navMap). -/
def navPointsApi (articles : List Article) : List String :=
  mapIdxFrom navPointApi 0 articles

/-- articles.reduce((sum, article) => sum + (article.wordCount || 1000), 0). -/
def totalWordsApi (articles : List Article) : Nat :=
  articles.foldl (fun sum article => sum + wordCountOr1000 article) 0

/-- Math.max(1, Math.ceil(totalWords / 250)). -/
def estimatedPagesApi (articles : List Article) : Nat :=
  max 1 ((totalWordsApi articles + 249) / 250)

/-- toc.ncx of the API builder. -/
def tocNcxApi (articles : List Article) (title : String) (uuid : String) : String :=
  "<?xml version=\"1.0\" encoding=\"UTF-8\"?>\n<ncx xmlns=\"http://www.daisy.org/z3986/2005/ncx/\" version=\"2005-1\">\n    <head>\n        <meta name=\"dtb:uid\" content=\""
    ++ uuid
    ++ "\"/>\n        <meta name=\"dtb:depth\" content=\"1\"/>\n        <meta name=\"dtb:"
    ++ "totalPageCount\" content=\""
    ++ natStrS (estimatedPagesApi articles)
    ++ "\"/>\n        <meta name=\"dtb:maxPageNumber\" content=\""
    ++ natStrS (estimatedPagesApi articles)
    ++ "\"/>\n    </head>\n    <docTitle>\n        <text>"
    ++ escapeXml (JSVal.str title)
    ++ "</text>\n    </docTitle>\n    <navMap>"
    ++ String.join (navPointsApi articles)
    ++ "\n    </navMap>\n</ncx>"

/-- The style block of the API builder's chapter template. -/
def chapterCssApi : String :=
  "    <style>\n        body \x7b font-family: serif; line-height: 1.6; margin: 2em; \x7d\n        h1, h2, h3 \x7b color: #333; \x7d\n        p \x7b margin-bottom: 1em; \x7d\n        img \x7b max-width: 100%; height: auto; \x7d\n        .chapter-meta \x7b color: #666; font-style: italic; margin-bottom: 2em; border-bottom: 1px solid #eee; padding-bottom: 1em; \x7d\n    </style>\n"

/-- article.wordCount ? word-count paragraph : '' (0 is falsy). -/
def chapterWordLine (article : Article) : String :=
  match article.wordCount with
  | some w => if w = 0 then "" else "<p>Word count: " ++ natStrS w ++ " words</p>"
  | none => ""

/-- chapter(index+1).html of the API builder.  The article content is
inserted verbatim after the escaped metadata block. -/
def chapterHtmlApi (article : Article) : String :=
  "<?xml version=\"1.0\" encoding=\"UTF-8\"?>\n<!DOCTYPE html PUBLIC \"-//W3C//DTD XHTML 1.1//EN\" \"http://www.w3.org/TR/xhtml11/DTD/xhtml11.dtd\">\n<html xmlns=\"http://www.w3.org/1999/xhtml\">\n<head>\n    <title>"
    ++ escapeXml (jsOfOpt article.title)
    ++ "</title>\n" ++ chapterCssApi ++ "</head>\n<body>\n    "
    ++ "<h1>" ++ escapeXml (jsOfOpt article.title) ++ "</h1>"
    ++ "\n    <div class=\"chapter-meta\">\n        <p>Source: "
    ++ escapeXml (jsOfOpt article.siteName)
    ++ "</p>\n        <p>URL: "
    ++ escapeXml (jsOfOpt article.url)
    ++ "</p>\n        "
    ++ chapterWordLine article
    ++ "\n    </div>\n    "
    ++ article.content
    ++ "\n</body>\n</html>"

/-- generateCollectionEpubForApi from server.js: the archive entries in
insertion order.  r1 and r2 are the random streams of its two
generateUuid() calls; date is new Date().toISOString().split('T')[0].
The function performs no validation of the article list. -/
def generateCollectionEpubForApi (articles : List Article) (title author description : String)
    (r1 r2 : Nat → Nat) (date : String) : List ZipEntry :=
  [zfile "mimetype" "application/epub+zip",
   zdir "META-INF/",
   zfile "META-INF/container.xml" containerXml,
   zdir "OEBPS/",
   zfile "OEBPS/content.opf"
     (contentOpfApi articles title author description (generateUuid r1) date),
   zfile "OEBPS/toc.ncx" (tocNcxApi articles title (generateUuid r2))]
  ++ mapIdxFrom (fun index article =>
      zfile (chapterName index) (chapterHtmlApi article)) 0 articles

/-! ## generateCollectionEpub (browser script part_001, plain variant) -/

/-- content.opf of the plain browser builder: no description element,
titles escaped with escapeHtml. -/
def contentOpfP1 (articles : List Article) (title author : String)
    (uuid date : String) : String :=
  "<?xml version=\"1.0\" encoding=\"UTF-8\"?>\n<package xmlns=\"http://www.idpf.org/2007/opf\" unique-identifier=\"BookId\" version=\"2.0\">\n    <metadata xmlns:dc=\"http://purl.org/dc/elements/1.1/\" xmlns:opf=\"http://www.idpf.org/2007/opf\">\n        <dc:identifier id=\"BookId\">"
    ++ uuid
    ++ "</dc:identifier>\n        <dc:title>"
    ++ escapeHtml (JSVal.str title)
    ++ "</dc:title>\n        <dc:creator>"
    ++ escapeHtml (JSVal.str author)
    ++ "</dc:creator>\n        <dc:language>en</dc:language>\n        <dc:date>"
    ++ date
    ++ "</dc:date>\n    </metadata>\n    <manifest>\n        <item id=\"ncx\" href=\"toc.ncx\" media-type=\"application/x-dtbncx+xml\"/>\n        "
    ++ String.intercalate "\n        " (chapterManifestItems articles)
    ++ "\n    </manifest>\n    <spine toc=\"ncx\">\n        "
    ++ String.intercalate "\n        " (chapterSpineItems articles)
    ++ "\n    </spine>\n</package>"

/-- One navPoint of the plain browser builder: playOrder is index + 1,
label escaped with escapeHtml. -/
def navPointP1 (index : Nat) (article : Article) : String :=
  "\n        <navPoint id=\"navpoint-" ++ natStrS (index + 1) ++ "\" "
    ++ "playOrder=\"" ++ natStrS (index + 1)
    ++ "\">\n            <navLabel>\n                <text>"
    ++ escapeHtml (jsOfOpt article.title)
    ++ "</text>\n            </navLabel>\n            <content src=\"chapter"
    ++ natStrS (index + 1) ++ ".html\"/>\n        </navPoint>"

/-- The navPoints array of the plain browser builder. -/
def navPointsP1 (articles : List Article) : List String :=
  mapIdxFrom navPointP1 0 articles

/-- toc.ncx of the plain browser builder: totalPageCount and maxPageNumber
are the literal 0. -/
def tocNcxP1 (articles : List Article) (title : String) (uuid : String) : String :=
  "<?xml version=\"1.0\" encoding=\"UTF-8\"?>\n<ncx xmlns=\"http://www.daisy.org/z3986/2005/ncx/\" version=\"2005-1\">\n    <head>\n        <meta name=\"dtb:uid\" content=\""
    ++ uuid
    ++ "\"/>\n        <meta name=\"dtb:depth\" content=\"1\"/>\n        <meta name=\"dtb:"
    ++ "totalPageCount\" content=\"0\"/>\n        <meta name=\"dtb:maxPageNumber\" content=\"0\"/>\n    </head>\n    <docTitle>\n        <text>"
    ++ escapeHtml (JSVal.str title)
    ++ "</text>\n    </docTitle>\n    <navMap>"
    ++ String.join (navPointsP1 articles)
    ++ "\n    </navMap>\n</ncx>"

/-- chapter(index+1).html of the plain browser builder: no word-count
paragraph, escapeHtml escaping. -/
def chapterHtmlP1 (article : Article) : String :=
  "<?xml version=\"1.0\" encoding=\"UTF-8\"?>\n<!DOCTYPE html PUBLIC \"-//W3C//DTD XHTML 1.1//EN\" \"http://www.w3.org/TR/xhtml11/DTD/xhtml11.dtd\">\n<html xmlns=\"http://www.w3.org/1999/xhtml\">\n<head>\n    <title>"
    ++ escapeHtml (jsOfOpt article.title)
    ++ "</title>\n" ++ chapterCssApi ++ "</head>\n<body>\n    "
    ++ "<h1>" ++ escapeHtml (jsOfOpt article.title) ++ "</h1>"
    ++ "\n    <div class=\"chapter-meta\">\n        <p>Source: "
    ++ escapeHtml (jsOfOpt article.siteName)
    ++ "</p>\n        <p>URL: "
    ++ escapeHtml (jsOfOpt article.url)
    ++ "</p>\n    </div>\n    "
    ++ article.content
    ++ "\n</body>\n</html>"

/-- generateCollectionEpub from the browser script part_001 (plain
variant): archive entries in insertion order, no validation of the
article list. -/
def generateCollectionEpub (articles : List Article) (title author : String)
    (r1 r2 : Nat → Nat) (date : String) : List ZipEntry :=
  [zfile "mimetype" "application/epub+zip",
   zdir "META-INF/",
   zfile "META-INF/container.xml" containerXml,
   zdir "OEBPS/",
   zfile "OEBPS/content.opf" (contentOpfP1 articles title author (generateUuid r1) date),
   zfile "OEBPS/toc.ncx" (tocNcxP1 articles title (generateUuid r2))]
  ++ mapIdxFrom (fun index article =>
      zfile (chapterName index) (chapterHtmlP1 article)) 0 articles

/-! ## generateCollectionEpubWithCover (browser script part_001) -/

/-- content.opf of the with-cover builder: cover and toc-page manifest and
spine entries precede the chapters; the description element counts the
articles. -/
def contentOpfCover (articles : List Article) (title author : String)
    (uuid date : String) : String :=
  "<?xml version=\"1.0\" encoding=\"UTF-8\"?>\n<package xmlns=\"http://www.idpf.org/2007/opf\" unique-identifier=\"BookId\" version=\"2.0\">\n    <metadata xmlns:dc=\"http://purl.org/dc/elements/1.1/\" xmlns:opf=\"http://www.idpf.org/2007/opf\">\n        <dc:identifier id=\"BookId\">"
    ++ uuid
    ++ "</dc:identifier>\n        <dc:title>"
    ++ escapeHtml (JSVal.str title)
    ++ "</dc:title>\n        <dc:creator>"
    ++ escapeHtml (JSVal.str author)
    ++ "</dc:creator>\n        <dc:language>en</dc:language>\n        <dc:date>"
    ++ date
    ++ "</dc:date>\n        <dc:description>Collection of "
    ++ natStrS articles.length
    ++ " articles compiled by LinkPub</dc:description>\n    </metadata>\n    <manifest>\n        <item id=\"ncx\" href=\"toc.ncx\" media-type=\"application/x-dtbncx+xml\"/>\n        "
    ++ String.intercalate "\n        "
      ("<item id=\"cover\" href=\"cover.html\" media-type=\"application/xhtml+xml\"/>"
        :: "<item id=\"toc-page\" href=\"toc.html\" media-type=\"application/xhtml+xml\"/>"
        :: chapterManifestItems articles)
    ++ "\n    </manifest>\n    <spine toc=\"ncx\">\n        "
    ++ String.intercalate "\n        "
      ("<itemref idref=\"cover\"/>"
        :: "<itemref idref=\"toc-page\"/>"
        :: chapterSpineItems articles)
    ++ "\n    </spine>\n</package>"

/-- The style block of cover.html. -/
def coverCss : String :=
  "    <style>\n        body \x7b \n            font-family: serif; \n            text-align: center; \n            padding: 4em 2em; \n            background: linear-gradient(135deg, #667eea 0%, #764ba2 100%);\n            color: white;\n            min-height: 80vh;\n            display: flex;\n            flex-direction: column;\n            justify-content: center;\n        \x7d\n        h1 \x7b \n            font-size: 3em; \n            margin-bottom: 0.5em; \n            text-shadow: 0 2px 4px rgba(0,0,0,0.3);\n        \x7d\n        .author \x7b \n            font-size: 1.5em; \n            margin-bottom: 2em; \n            opacity: 0.9;\n        \x7d\n        .meta \x7b \n            font-size: 1.2em; \n            opacity: 0.8; \n            margin-top: 3em;\n        \x7d\n        .article-count \x7b\n            font-size: 1.1em;\n            margin-top: 1em;\n            background: rgba(255,255,255,0.2);\n            padding: 1em;\n            border-radius: 10px;\n            display: inline-block;\n        \x7d\n    </style>\n"

/-- cover.html of the with-cover builder; localeDate is
new Date().toLocaleDateString(). -/
def coverHtml (articles : List Article) (title author localeDate : String) : String :=
  "<?xml version=\"1.0\" encoding=\"UTF-8\"?>\n<!DOCTYPE html PUBLIC \"-//W3C//DTD XHTML 1.1//EN\" \"http://www.w3.org/TR/xhtml11/DTD/xhtml11.dtd\">\n<html xmlns=\"http://www.w3.org/1999/xhtml\">\n<head>\n    <title>Cover</title>\n"
    ++ coverCss
    ++ "</head>\n<body>\n    <h1>"
    ++ escapeHtml (JSVal.str title)
    ++ "</h1>\n    <div class=\"author\">by "
    ++ escapeHtml (JSVal.str author)
    ++ "</div>\n    <div class=\"article-count\">"
    ++ natStrS articles.length
    ++ " Articles</div>\n    <div class=\"meta\">\n        Generated on "
    ++ localeDate
    ++ "<br/>\n        Created with LinkPub\n    </div>\n</body>\n</html>"

/-- toc.html of the with-cover builder: a list item per article, in order. -/
def tocPageHtml (articles : List Article) : String :=
  "<?xml version=\"1.0\" encoding=\"UTF-8\"?>\n<!DOCTYPE html PUBLIC \"-//W3C//DTD XHTML 1.1//EN\" \"http://www.w3.org/TR/xhtml11/DTD/xhtml11.dtd\">\n<html xmlns=\"http://www.w3.org/1999/xhtml\">\n<head>\n    <title>Table of Contents</title>\n    <style>\n        body \x7b font-family: serif; line-height: 1.6; margin: 2em; \x7d\n        h1 \x7b color: #333; border-bottom: 2px solid #667eea; padding-bottom: 0.5em; \x7d\n        ul \x7b list-style: none; padding: 0; \x7d\n        li \x7b margin: 1em 0; padding: 0.5em; border-left: 3px solid #667eea; \x7d\n        a \x7b text-decoration: none; color: #333; font-size: 1.1em; \x7d\n        a:hover \x7b color: #667eea; \x7d\n    </style>\n</head>\n<body>\n    <h1>Table of Contents</h1>\n    <ul>\n        "
    ++ String.intercalate "\n            "
      (mapIdxFrom (fun index article =>
        "<li><a href=\"chapter" ++ natStrS (index + 1) ++ ".html\">"
          ++ escapeHtml (jsOfOpt article.title) ++ "</a></li>") 0 articles)
    ++ "\n    </ul>\n</body>\n</html>"

/-- The fixed first navPoint of the with-cover toc.ncx: the table of
contents page at playOrder 1. -/
def tocNavPointCover : String :=
  "<navPoint id=\"navpoint-0\" "
    ++ "playOrder=\"" ++ natStrS 1
    ++ "\">\n                <navLabel><text>Table of Contents</text></navLabel>\n                <content src=\"toc.html\"/>\n            </navPoint>"

/-- One chapter navPoint of the with-cover toc.ncx: playOrder is
index + 2, after the table-of-contents page. -/
def navPointCover (index : Nat) (article : Article) : String :=
  "\n            <navPoint id=\"navpoint-" ++ natStrS (index + 1) ++ "\" "
    ++ "playOrder=\"" ++ natStrS (index + 2)
    ++ "\">\n                <navLabel><text>"
    ++ escapeHtml (jsOfOpt article.title)
    ++ "</text></navLabel>\n                <content src=\"chapter"
    ++ natStrS (index + 1) ++ ".html\"/>\n            </navPoint>"

/-- The navPoints array of the with-cover builder: the toc page, then one
navPoint per article. -/
def navPointsCover (articles : List Article) : List String :=
  tocNavPointCover :: mapIdxFrom navPointCover 0 articles

/-- toc.ncx of the with-cover builder (page counts are the literal 0). -/
def tocNcxCover (articles : List Article) (title : String) (uuid : String) : String :=
  "<?xml version=\"1.0\" encoding=\"UTF-8\"?>\n<ncx xmlns=\"http://www.daisy.org/z3986/2005/ncx/\" version=\"2005-1\">\n    <head>\n        <meta name=\"dtb:uid\" content=\""
    ++ uuid
    ++ "\"/>\n        <meta name=\"dtb:depth\" content=\"1\"/>\n        <meta name=\"dtb:"
    ++ "totalPageCount\" content=\"0\"/>\n        <meta name=\"dtb:maxPageNumber\" content=\"0\"/>\n    </head>\n    <docTitle>\n        <text>"
    ++ escapeHtml (JSVal.str title)
    ++ "</text>\n    </docTitle>\n    <navMap>"
    ++ String.join (navPointsCover articles)
    ++ "\n    </navMap>\n</ncx>"

/-- The style block of the with-cover chapter template. -/
def chapterCssCover : String :=
  "    <style>\n        body \x7b font-family: serif; line-height: 1.6; margin: 2em; \x7d\n        h1, h2, h3 \x7b color: #333; \x7d\n        p \x7b margin-bottom: 1em; \x7d\n        img \x7b max-width: 100%; height: auto; \x7d\n        .chapter-meta \x7b \n            color: #666; \n            font-style: italic; \n            margin-bottom: 2em; \n            border-bottom: 1px solid #eee; \n            padding-bottom: 1em; \n        \x7d\n        .chapter-number \x7b\n            color: #667eea;\n            font-size: 0.9em;\n            font-weight: bold;\n            margin-bottom: 0.5em;\n        \x7d\n    </style>\n"

/-- chapter(index+1).html of the with-cover builder: a Chapter N label,
then the escaped title as h1, metadata, optional word count, then the raw
content. -/
def chapterHtmlCover (index : Nat) (article : Article) : String :=
  "<?xml version=\"1.0\" encoding=\"UTF-8\"?>\n<!DOCTYPE html PUBLIC \"-//W3C//DTD XHTML 1.1//EN\" \"http://www.w3.org/TR/xhtml11/DTD/xhtml11.dtd\">\n<html xmlns=\"http://www.w3.org/1999/xhtml\">\n<head>\n    <title>"
    ++ escapeHtml (jsOfOpt article.title)
    ++ "</title>\n" ++ chapterCssCover ++ "</head>\n<body>\n    <div class=\"chapter-number\">Chapter "
    ++ natStrS (index + 1)
    ++ "</div>\n    "
    ++ "<h1>" ++ escapeHtml (jsOfOpt article.title) ++ "</h1>"
    ++ "\n    <div class=\"chapter-meta\">\n        <p>Source: "
    ++ escapeHtml (jsOfOpt article.siteName)
    ++ "</p>\n        <p>URL: "
    ++ escapeHtml (jsOfOpt article.url)
    ++ "</p>\n        "
    ++ chapterWordLine article
    ++ "\n    </div>\n    "
    ++ article.content
    ++ "\n</body>\n</html>"

/-- generateCollectionEpubWithCover from the browser script part_001:
archive entries in insertion order (cover and toc page between content.opf
and toc.ncx), no validation of the article list. -/
def generateCollectionEpubWithCover (articles : List Article) (title author : String)
    (r1 r2 : Nat → Nat) (date localeDate : String) : List ZipEntry :=
  [zfile "mimetype" "application/epub+zip",
   zdir "META-INF/",
   zfile "META-INF/container.xml" containerXml,
   zdir "OEBPS/",
   zfile "OEBPS/content.opf" (contentOpfCover articles title author (generateUuid r1) date),
   zfile "OEBPS/cover.html" (coverHtml articles title author localeDate),
   zfile "OEBPS/toc.html" (tocPageHtml articles),
   zfile "OEBPS/toc.ncx" (tocNcxCover articles title (generateUuid r2))]
  ++ mapIdxFrom (fun index article =>
      zfile (chapterName index) (chapterHtmlCover index article)) 0 articles

/-! ## Callers of the builders -/

/-- POST /api/v1/generate-epub (server.js): when extraction produced no
articles the endpoint answers HTTP 422 before any builder runs; otherwise
the archive is built and sent. -/
def apiGenerateEpubEndpoint (articles : List Article) (title author description : String)
    (r1 r2 : Nat → Nat) (date : String) : Except Nat (List ZipEntry) :=
  if articles.length = 0 then Except.error 422
  else Except.ok (generateCollectionEpubForApi articles title author description r1 r2 date)

/-- handleDownloadCollection (part_001): returns early when the collection
is empty; otherwise defaults title and author and builds the plain EPUB. -/
def handleDownloadCollection (articles : List Article) (titleInput authorInput : String)
    (r1 r2 : Nat → Nat) (date : String) : Option (List ZipEntry) :=
  if articles.length = 0 then none
  else
    let title := if titleInput.trim = "" then "Article Collection" else titleInput.trim
    let author := if authorInput.trim = "" then "LinkPub" else authorInput.trim
    some (generateCollectionEpub articles title author r1 r2 date)

/-- handleGenerateCover (part_001): the same early return, then the
with-cover builder. -/
def handleGenerateCover (articles : List Article) (titleInput authorInput : String)
    (r1 r2 : Nat → Nat) (date localeDate : String) : Option (List ZipEntry) :=
  if articles.length = 0 then none
  else
    let title := if titleInput.trim = "" then "Article Collection" else titleInput.trim
    let author := if authorInput.trim = "" then "LinkPub" else authorInput.trim
    some (generateCollectionEpubWithCover articles title author r1 r2 date localeDate)

/-! ## Library download and delete endpoints (server.js) -/

/-- filename.includes(pat). -/
def strIncludes (pat s : String) : Bool := containsSub pat.data s.data

/-- filename.endsWith(suffix). -/
def strEndsWith (suffix s : String) : Bool := suffix.data.isSuffixOf s.data

/-- The filename validation shared by GET and DELETE /api/epubs/:filename:
must end with .epub and contain neither a parent reference nor a slash. -/
def epubFilenameValid (filename : String) : Bool :=
  strEndsWith ".epub" filename && !(strIncludes ".." filename)
    && !(strIncludes "/" filename)

/-- Outcome of a library request: an HTTP rejection before any filesystem
access, or filesystem access to the listed paths. -/
inductive EpubRequestOutcome where
  | reject (status : Nat)
  | fsAccess (paths : List String)
deriving DecidableEq

/-- path.join(epubsDir, userId, filename): for the validated segments the
filename holds no separator and no parent reference, so join is plain
concatenation with the separator. -/
def joinPath (dir uid filename : String) : String :=
  dir ++ "/" ++ uid ++ "/" ++ filename

/-- GET /api/epubs/:filename: validate, then access the EPUB path
(fs.access followed by res.download). -/
def getEpubHandler (epubsDir userId filename : String) : EpubRequestOutcome :=
  if epubFilenameValid filename then
    EpubRequestOutcome.fsAccess [joinPath epubsDir userId filename]
  else EpubRequestOutcome.reject 400

/-- filename.replace('.epub', '.json'): with a string pattern JavaScript
replaces only the first occurrence. -/
def replaceFirst (pat rep s : List Char) : List Char :=
  match firstOcc pat s with
  | none => s
  | some i => s.take i ++ rep ++ s.drop (i + pat.length)

/-- DELETE /api/epubs/:filename: validate, then unlink the EPUB path and
the metadata sidecar path. -/
def deleteEpubHandler (epubsDir userId filename : String) : EpubRequestOutcome :=
  if epubFilenameValid filename then
    EpubRequestOutcome.fsAccess
      [joinPath epubsDir userId filename,
       joinPath epubsDir userId
         (String.mk (replaceFirst ".epub".data ".json".data filename.data))]
  else EpubRequestOutcome.reject 400

/-! ## trackConvertedUrl (server.js) -/

/-- One record of the converted-URLs store.  convertedAt is the conversion
timestamp (the source stores an ISO string and compares via new Date). -/
structure UrlEntry where
  id : String
  userId : String
  url : String
  title : String
  siteName : String
  method : String
  convertedAt : Nat
deriving DecidableEq

/-- The ordering of the cap-enforcement sort,
(a, b) => new Date(b.convertedAt) - new Date(a.convertedAt):
a comes before b when a is at least as recent. -/
def moreRecent (a b : UrlEntry) : Prop := b.convertedAt ≤ a.convertedAt

instance : DecidableRel moreRecent := fun _ _ => Nat.decLe _ _

/-- The store after the dedup filter: any previous entry with the same
URL by the same user is removed. -/
def dedupedUrls (urls : List UrlEntry) (e : UrlEntry) : List UrlEntry :=
  urls.filter (fun entry => !(entry.url == e.url && entry.userId == e.userId))

/-- The store after pushing the new entry. -/
def pushedUrls (urls : List UrlEntry) (e : UrlEntry) : List UrlEntry :=
  dedupedUrls urls e ++ [e]

/-- The tracked user's entries after the push (the source's userUrls). -/
def userUrlsAfterPush (urls : List UrlEntry) (e : UrlEntry) : List UrlEntry :=
  (pushedUrls urls e).filter (fun entry => entry.userId == e.userId)

/-- trackConvertedUrl: drop any previous entry of the same user and URL,
append the new entry, and when the user then holds more than 1000 entries
keep only their 1000 most recent (stable sort by descending recency, then
slice), leaving other users' entries untouched. -/
def trackConvertedUrl (urls : List UrlEntry) (e : UrlEntry) : List UrlEntry :=
  if 1000 < (userUrlsAfterPush urls e).length then
    (pushedUrls urls e).filter (fun entry => entry.userId != e.userId)
      ++ (List.insertionSort moreRecent (userUrlsAfterPush urls e)).take 1000
  else pushedUrls urls e

/-- A concrete single-entry store used to check the tracking invariants. -/
def c10Store : List UrlEntry :=
  [⟨"id1", "user1", "https://example.com/a", "First", "example.com", "readability", 5⟩]

/-- A concrete fresh conversion by the same user. -/
def c10Entry : UrlEntry :=
  ⟨"id2", "user1", "https://example.com/b", "Second", "example.com", "readability", 9⟩

/-! ## Claim C1 — empty collections -/

/-- C1 counterexample: each builder, applied to the empty article list,
still produces a complete archive (the four container files, plus cover
and toc page in the with-cover variant) instead of failing with a
ValidationError — no such check or error type exists in the builders. -/
theorem c1_counterexample :
    (generateCollectionEpubForApi [] "Title" "Author" "" (fun _ => 0) (fun _ => 0)
        "2024-01-01").map ZipEntry.name
      = ["mimetype", "META-INF/", "META-INF/container.xml", "OEBPS/",
         "OEBPS/content.opf", "OEBPS/toc.ncx"]
    ∧ (generateCollectionEpub [] "Title" "Author" (fun _ => 0) (fun _ => 0)
        "2024-01-01").map ZipEntry.name
      = ["mimetype", "META-INF/", "META-INF/container.xml", "OEBPS/",
         "OEBPS/content.opf", "OEBPS/toc.ncx"]
    ∧ (generateCollectionEpubWithCover [] "Title" "Author" (fun _ => 0) (fun _ => 0)
        "2024-01-01" "1/1/2024").map ZipEntry.name
      = ["mimetype", "META-INF/", "META-INF/container.xml", "OEBPS/",
         "OEBPS/content.opf", "OEBPS/cover.html", "OEBPS/toc.html", "OEBPS/toc.ncx"] :=
  ⟨rfl, rfl, rfl⟩

/-- C1 (amended): the builder functions perform no empty-collection
validation themselves; the empty case is rejected by their callers — the
API endpoint answers HTTP 422 before invoking the builder, and the two
browser handlers return early — and a non-empty list always reaches the
builder. -/
theorem c1_empty_guard (title author description titleInput authorInput : String)
    (r1 r2 : Nat → Nat) (date localeDate : String) :
    apiGenerateEpubEndpoint [] title author description r1 r2 date = Except.error 422
    ∧ handleDownloadCollection [] titleInput authorInput r1 r2 date = none
    ∧ handleGenerateCover [] titleInput authorInput r1 r2 date localeDate = none
    ∧ ∀ articles : List Article, articles ≠ [] →
        apiGenerateEpubEndpoint articles title author description r1 r2 date
          = Except.ok (generateCollectionEpubForApi articles title author description
              r1 r2 date) := by
  refine ⟨rfl, rfl, rfl, ?_⟩
  intro articles hne
  unfold apiGenerateEpubEndpoint
  rw [if_neg (fun h => hne (List.length_eq_zero.mp h))]

/-- Witness for c1_empty_guard at a one-article collection. -/
theorem c1_empty_guard_witness :
    apiGenerateEpubEndpoint
        [{ title := some "T1", content := "<p>x</p>", excerpt := none,
           siteName := none, url := none, wordCount := none }]
        "T" "A" "" (fun _ => 0) (fun _ => 0) "2024-01-01"
      = Except.ok (generateCollectionEpubForApi
          [{ title := some "T1", content := "<p>x</p>", excerpt := none,
             siteName := none, url := none, wordCount := none }]
          "T" "A" "" (fun _ => 0) (fun _ => 0) "2024-01-01") :=
  (c1_empty_guard "T" "A" "" "TI" "AI" (fun _ => 0) (fun _ => 0)
    "2024-01-01" "1/1/2024").2.2.2 _ (by simp)

/-! ## Claim C2 — the mimetype entry -/

/-- C2: for every non-empty collection, each builder's archive has as its
first entry the file named mimetype, stored without compression, whose
content is exactly application/epub+zip. -/
theorem c2_mimetype_first (articles : List Article) (h : articles ≠ [])
    (title author description titleP authorP : String)
    (r1 r2 : Nat → Nat) (date localeDate : String) :
    (generateCollectionEpubForApi articles title author description r1 r2 date).head?
      = some ⟨"mimetype", "application/epub+zip", false, ZipCompression.store⟩
    ∧ (generateCollectionEpub articles titleP authorP r1 r2 date).head?
      = some ⟨"mimetype", "application/epub+zip", false, ZipCompression.store⟩
    ∧ (generateCollectionEpubWithCover articles titleP authorP r1 r2 date localeDate).head?
      = some ⟨"mimetype", "application/epub+zip", false, ZipCompression.store⟩ :=
  ⟨rfl, rfl, rfl⟩

/-- Witness for c2_mimetype_first at a one-article collection. -/
theorem c2_mimetype_first_witness :
    (generateCollectionEpubForApi
        [{ title := some "T1", content := "<p>x</p>", excerpt := none,
           siteName := none, url := none, wordCount := none }]
        "T" "A" "" (fun _ => 0) (fun _ => 0) "2024-01-01").head?
      = some ⟨"mimetype", "application/epub+zip", false, ZipCompression.store⟩ :=
  (c2_mimetype_first _ (by simp) "T" "A" "" "T" "A" (fun _ => 0) (fun _ => 0)
    "2024-01-01" "1/1/2024").1

/-! ## Claim C3 — the escaping functions -/

/-- C3 counterexample: escapeHtml — the escaping function applied to
titles, author, URL and site name in the browser builders — leaves the
double and single quote unescaped, so it does not perform the five claimed
entity substitutions (escapeXml on the server does). -/
theorem c3_counterexample :
    escapeHtml (JSVal.str "\"") = "\""
    ∧ escapeHtml (JSVal.str "'") = "'"
    ∧ escapeXml (JSVal.str "\"") = "&quot;"
    ∧ ("\"" : String) ≠ "&quot;" :=
  ⟨rfl, rfl, rfl, by decide⟩

/-- C3 (amended): the server-side escapeXml replaces the ampersand, the
angle brackets and both quotes with their XML entities — ampersand first,
so the chain acts exactly like the single-pass entity map and nothing is
double-escaped — and returns the empty string for null, undefined and
non-string input; the client-side escapeHtml used by the browser builders
escapes only what DOM text-node serialization escapes (ampersand, angle
brackets, non-breaking space), leaving quotes unchanged, with the same
guard for null and non-string input. -/
theorem c3_escaping (s : String) :
    escapeXml (JSVal.str s) = String.mk ((s.data.map xmlEntityOfChar).flatten)
    ∧ escapeXml JSVal.nullV = "" ∧ escapeXml JSVal.undef = ""
    ∧ (∀ n : Int, escapeXml (JSVal.num n) = "")
    ∧ (∀ b : Bool, escapeXml (JSVal.boolV b) = "")
    ∧ escapeHtml (JSVal.str s) = String.mk ((s.data.map domTextEntity).flatten)
    ∧ escapeHtml JSVal.nullV = "" ∧ escapeHtml JSVal.undef = "" := by
  refine ⟨?_, rfl, rfl, fun n => rfl, fun b => rfl, ?_, rfl, rfl⟩
  · by_cases h : s = ""
    · subst h
      rfl
    · show (if s = "" then "" else String.mk (escapeXmlData s.data)) = _
      rw [if_neg h, escapeXmlData_eq_join]
  · by_cases h : s = ""
    · subst h
      rfl
    · show (if s = "" then "" else String.mk ((s.data.map domTextEntity).flatten)) = _
      rw [if_neg h]

/-! ## Claim C8 — sanitizeFilename -/

/-- A character that may appear in a sanitised base name: lowercase
letter, digit, underscore or hyphen. -/
def SanitizedCharOK (c : Char) : Prop :=
  ('a' ≤ c ∧ c ≤ 'z') ∨ ('0' ≤ c ∧ c ≤ '9') ∨ c = '_' ∨ c = '-'

theorem char_le_iff {c d : Char} : c ≤ d ↔ c.toNat ≤ d.toNat := by
  rw [Char.le_def]
  exact ge_iff_le

theorem toNat_ofNat_valid {n : Nat} (h : n.isValidChar) : (Char.ofNat n).toNat = n := by
  unfold Char.ofNat
  rw [dif_pos h]
  rfl

theorem collapseWs_chars {l : List Char} :
    ∀ b, ∀ c ∈ collapseWsAux b l, (c ∈ l ∧ jsWhitespace c = false) ∨ c = '_' := by
  induction l with
  | nil => intro b c hc; simp [collapseWsAux] at hc
  | cons a t ih =>
    intro b c hc
    unfold collapseWsAux at hc
    by_cases hws : jsWhitespace a
    · rw [if_pos hws] at hc
      by_cases hb : b
      · subst hb
        rw [if_pos rfl] at hc
        rcases ih true c hc with ⟨h1, h2⟩ | h
        · exact Or.inl ⟨by simp [h1], h2⟩
        · exact Or.inr h
      · rw [if_neg hb] at hc
        rcases List.mem_cons.mp hc with h | h
        · exact Or.inr h
        · rcases ih true c h with ⟨h1, h2⟩ | h'
          · exact Or.inl ⟨by simp [h1], h2⟩
          · exact Or.inr h'
    · rw [if_neg hws] at hc
      rcases List.mem_cons.mp hc with h | h
      · subst h
        exact Or.inl ⟨by simp, by simpa using hws⟩
      · rcases ih false c h with ⟨h1, h2⟩ | h'
        · exact Or.inl ⟨by simp [h1], h2⟩
        · exact Or.inr h'

theorem toLower_sanitized {c : Char} (hk : sanitizeKeep c = true)
    (hw : jsWhitespace c = false) : SanitizedCharOK (Char.toLower c) := by
  have hcases : ('a' ≤ c ∧ c ≤ 'z') ∨ ('A' ≤ c ∧ c ≤ 'Z') ∨ ('0' ≤ c ∧ c ≤ '9')
      ∨ c = '-' ∨ c = '_' := by
    simp only [sanitizeKeep, hw, Bool.or_false, Bool.or_eq_true, Bool.and_eq_true,
      decide_eq_true_eq] at hk
    tauto
  have hval : ∀ m, 97 ≤ m → m ≤ 122 → Nat.isValidChar m := fun m _ h2 => Or.inl (by omega)
  rcases hcases with ⟨h1, h2⟩ | ⟨h1, h2⟩ | ⟨h1, h2⟩ | h | h
  · -- lowercase letter: toLower is the identity
    have hn1 : 97 ≤ c.toNat := char_le_iff.mp h1
    have hn2 : c.toNat ≤ 122 := char_le_iff.mp h2
    unfold Char.toLower
    rw [if_neg (by omega)]
    exact Or.inl ⟨h1, h2⟩
  · -- uppercase letter: shifted into the lowercase range
    have hn1 : 65 ≤ c.toNat := char_le_iff.mp h1
    have hn2 : c.toNat ≤ 90 := char_le_iff.mp h2
    unfold Char.toLower
    rw [if_pos (by omega)]
    have hton : (Char.ofNat (c.toNat + 32)).toNat = c.toNat + 32 :=
      toNat_ofNat_valid (hval _ (by omega) (by omega))
    have h97 : ('a').toNat = 97 := rfl
    have h122 : ('z').toNat = 122 := rfl
    refine Or.inl ⟨char_le_iff.mpr ?_, char_le_iff.mpr ?_⟩
    · rw [h97, hton]
      omega
    · rw [h122, hton]
      omega
  · -- digit: toLower is the identity
    have hn1 : 48 ≤ c.toNat := char_le_iff.mp h1
    have hn2 : c.toNat ≤ 57 := char_le_iff.mp h2
    unfold Char.toLower
    rw [if_neg (by omega)]
    exact Or.inr (Or.inl ⟨h1, h2⟩)
  · subst h
    exact Or.inr (Or.inr (Or.inr rfl))
  · subst h
    exact Or.inr (Or.inr (Or.inl rfl))

/-- C8 counterexample: part_001's sanitizeFilename returns the empty
string for a title with no representable characters — there is no
"untitled" fallback anywhere — and part_002's variant does not truncate
to 50 characters. -/
theorem c8_counterexample :
    sanitizeFilenameP1 "!!!" = ""
    ∧ (sanitizeFilenameP2
        "aaaaaaaaaaaaaaaaaaaaaaaaaaaaaaaaaaaaaaaaaaaaaaaaaaaaaaaaaaaa").length = 60 :=
  ⟨rfl, rfl⟩

/-- C8 (amended): part_001's sanitizeFilename strips characters outside
[A-Za-z0-9 whitespace _-], collapses each whitespace run to a single
underscore, lowercases, and truncates to at most 50 characters; the result
can be empty — no fallback is applied.  (part_002's older variant maps
every character outside [A-Za-z0-9] to an underscore and never truncates.) -/
theorem c8_sanitize (s : String) :
    (sanitizeFilenameP1 s).length ≤ 50
    ∧ (∀ c ∈ (sanitizeFilenameP1 s).data, SanitizedCharOK c)
    ∧ (sanitizeFilenameP2 s).length = s.length := by
  refine ⟨?_, ?_, ?_⟩
  · show (((collapseWsAux false (s.data.filter sanitizeKeep)).map Char.toLower).take 50).length ≤ 50
    exact le_trans (List.length_take_le _ _) (le_refl _)
  · intro c hc
    have hc' : c ∈ ((collapseWsAux false (s.data.filter sanitizeKeep)).map Char.toLower).take 50 := hc
    have hc2 : c ∈ (collapseWsAux false (s.data.filter sanitizeKeep)).map Char.toLower :=
      List.take_subset _ _ hc'
    rcases List.mem_map.mp hc2 with ⟨c0, hc0, rfl⟩
    rcases collapseWs_chars false c0 hc0 with ⟨h1, h2⟩ | h
    · exact toLower_sanitized (List.of_mem_filter h1) h2
    · subst h
      exact Or.inr (Or.inr (Or.inl rfl))
  · show ((s.data.map fun c =>
        if ('a' ≤ c && c ≤ 'z') || ('A' ≤ c && c ≤ 'Z') || ('0' ≤ c && c ≤ '9') then c
        else '_').map Char.toLower).length = s.length
    rw [List.length_map, List.length_map]
    rfl

/-! ## Helper lemmas about mapIdxFrom and segment chains -/

theorem noOccurs_of_containsSub {pat u : List Char} (h : containsSub pat u = false) :
    ¬ Occurs pat u := containsSub_eq_false_iff.mp h

theorem spanFreeSuffix_of_head_not_mem {pat u : List Char} {c : Char}
    (hh : pat.head? = some c) (hc : c ∉ u) : SpanFreeSuffix pat u :=
  fun k hklen hk0 => spanFree_of_head_not_mem hh hc k hk0 hklen

theorem not_mem_natStr {c : Char} (h : c.isDigit = false) (n : Nat) : c ∉ natStr n := by
  intro hc
  rw [natStr_digits n c hc] at h
  exact Bool.noConfusion h

theorem headNotDigit_of_append {s : String} {c0 : Char}
    (h : s.data.head? = some c0) (hd : c0.isDigit = false) (v : List Char) :
    ∀ c, (s.data ++ v).head? = some c → c.isDigit = false := by
  intro c hc
  cases hu : s.data with
  | nil => rw [hu] at h; simp at h
  | cons a t =>
    rw [hu] at h hc
    simp only [List.cons_append, List.head?_cons, Option.some.injEq] at h hc
    rw [← hc, h]
    exact hd

theorem map_mapIdxFrom (g : β → γ) (f : Nat → α → β) (i : Nat) (l : List α) :
    (mapIdxFrom f i l).map g = mapIdxFrom (fun j a => g (f j a)) i l := by
  induction l generalizing i with
  | nil => rfl
  | cons a t ih => simp [mapIdxFrom, ih]

theorem filter_mapIdxFrom_true {p : β → Bool} {f : Nat → α → β}
    (h : ∀ i a, p (f i a) = true) (i : Nat) (l : List α) :
    (mapIdxFrom f i l).filter p = mapIdxFrom f i l := by
  induction l generalizing i with
  | nil => rfl
  | cons a t ih => simp [mapIdxFrom, List.filter_cons, h, ih]

theorem mapIdxFrom_congr {f g : Nat → α → β}
    (h : ∀ i a, f i a = g i a) (i : Nat) (l : List α) :
    mapIdxFrom f i l = mapIdxFrom g i l := by
  induction l generalizing i with
  | nil => rfl
  | cons a t ih => simp [mapIdxFrom, h, ih]

theorem mapIdxFrom_index_only (g : Nat → β) (i : Nat) (l : List α) :
    mapIdxFrom (fun j _ => g j) i l = (List.range' i l.length).map g := by
  induction l generalizing i with
  | nil => rfl
  | cons a t ih => simp [mapIdxFrom, ih, List.range'_succ]

theorem natStrS_data (n : Nat) : (natStrS n).data = natStr n := rfl

/-! ## Claim C4 — chapter order, names and headings -/

/-- Does an archive entry hold a chapter file?  (Name check only.) -/
def isChapterEntry (entry : ZipEntry) : Bool :=
  "OEBPS/chapter".data.isPrefixOf entry.name.data

/-- The chapter entries of an archive, in archive order. -/
def chapterEntries (l : List ZipEntry) : List ZipEntry := l.filter isChapterEntry

theorem isChapterEntry_chapter (i : Nat) (c : String) :
    isChapterEntry (zfile (chapterName i) c) = true := by
  apply List.isPrefixOf_iff_prefix.mpr
  show "OEBPS/chapter".data <+: (("OEBPS/chapter" ++ natStrS (i + 1)) ++ ".html").data
  rw [String.data_append, String.data_append, List.append_assoc]
  exact List.prefix_append _ _

theorem chapterEntries_api (articles : List Article) (title author description : String)
    (r1 r2 : Nat → Nat) (date : String) :
    chapterEntries (generateCollectionEpubForApi articles title author description r1 r2 date)
      = mapIdxFrom (fun index article => zfile (chapterName index) (chapterHtmlApi article))
          0 articles := by
  unfold chapterEntries generateCollectionEpubForApi
  rw [List.filter_append, filter_mapIdxFrom_true (fun i a => isChapterEntry_chapter i _)]
  have hfixed : ∀ x y : String,
      List.filter isChapterEntry
        [zfile "mimetype" "application/epub+zip", zdir "META-INF/",
         zfile "META-INF/container.xml" containerXml, zdir "OEBPS/",
         zfile "OEBPS/content.opf" x, zfile "OEBPS/toc.ncx" y] = [] := fun x y => rfl
  rw [hfixed]
  rfl

theorem chapterEntries_cover (articles : List Article) (title author : String)
    (r1 r2 : Nat → Nat) (date localeDate : String) :
    chapterEntries (generateCollectionEpubWithCover articles title author r1 r2 date localeDate)
      = mapIdxFrom (fun index article =>
          zfile (chapterName index) (chapterHtmlCover index article)) 0 articles := by
  unfold chapterEntries generateCollectionEpubWithCover
  rw [List.filter_append, filter_mapIdxFrom_true (fun i a => isChapterEntry_chapter i _)]
  have hfixed : ∀ w x y z : String,
      List.filter isChapterEntry
        [zfile "mimetype" "application/epub+zip", zdir "META-INF/",
         zfile "META-INF/container.xml" containerXml, zdir "OEBPS/",
         zfile "OEBPS/content.opf" w, zfile "OEBPS/cover.html" x,
         zfile "OEBPS/toc.html" y, zfile "OEBPS/toc.ncx" z] = [] := fun w x y z => rfl
  rw [hfixed]
  rfl

/-- The first h1 heading of an API chapter document is exactly the
escapeXml-escaped article title. -/
theorem h1Of_chapterHtmlApi (a : Article) :
    h1Of (chapterHtmlApi a).data = some (escapeXml (jsOfOpt a.title)).data := by
  have he : '<' ∉ (escapeXml (jsOfOpt a.title)).data := escapeXml_data_no_lt _
  have hP : ¬ Occurs h1OpenTag
      (("<?xml version=\"1.0\" encoding=\"UTF-8\"?>\n<!DOCTYPE html PUBLIC \"-//W3C//DTD XHTML 1.1//EN\" \"http://www.w3.org/TR/xhtml11/DTD/xhtml11.dtd\">\n<html xmlns=\"http://www.w3.org/1999/xhtml\">\n<head>\n    <title>" : String).data
        ++ ((escapeXml (jsOfOpt a.title)).data
          ++ (("</title>\n" : String).data
            ++ (chapterCssApi.data ++ ("</head>\n<body>\n    " : String).data)))) := by
    refine noOccurs_append_left (noOccurs_of_containsSub (by decide)) (by decide) ?_
    refine noOccurs_append_left (noOccurs_of_head_not_mem rfl he)
      (spanFreeSuffix_of_head_not_mem rfl he) ?_
    refine noOccurs_append_left (noOccurs_of_containsSub (by decide)) (by decide) ?_
    exact noOccurs_append_left (noOccurs_of_containsSub (by decide)) (by decide)
      (noOccurs_of_containsSub (by decide))
  have heq : (chapterHtmlApi a).data
      = (("<?xml version=\"1.0\" encoding=\"UTF-8\"?>\n<!DOCTYPE html PUBLIC \"-//W3C//DTD XHTML 1.1//EN\" \"http://www.w3.org/TR/xhtml11/DTD/xhtml11.dtd\">\n<html xmlns=\"http://www.w3.org/1999/xhtml\">\n<head>\n    <title>" : String).data
          ++ ((escapeXml (jsOfOpt a.title)).data
            ++ (("</title>\n" : String).data
              ++ (chapterCssApi.data ++ ("</head>\n<body>\n    " : String).data))))
        ++ h1OpenTag
        ++ ((escapeXml (jsOfOpt a.title)).data ++ h1CloseTag
          ++ (("\n    <div class=\"chapter-meta\">\n        <p>Source: " : String).data
            ++ ((escapeXml (jsOfOpt a.siteName)).data
              ++ (("</p>\n        <p>URL: " : String).data
                ++ ((escapeXml (jsOfOpt a.url)).data
                  ++ (("</p>\n        " : String).data
                    ++ ((chapterWordLine a).data
                      ++ (("\n    </div>\n    " : String).data
                        ++ (a.content.data
                          ++ ("\n</body>\n</html>" : String).data))))))))) := by
    simp [chapterHtmlApi, h1OpenTag, h1CloseTag, String.data_append, List.append_assoc]
  rw [heq]
  exact h1Of_spec _ _ _ hP he

/-- The first h1 heading of a with-cover chapter document is exactly the
escapeHtml-escaped article title. -/
theorem h1Of_chapterHtmlCover (i : Nat) (a : Article) :
    h1Of (chapterHtmlCover i a).data = some (escapeHtml (jsOfOpt a.title)).data := by
  have he : '<' ∉ (escapeHtml (jsOfOpt a.title)).data := escapeHtml_data_no_lt _
  have hdig : ('<' : Char) ∉ natStr (i + 1) := not_mem_natStr (by decide) _
  have hP : ¬ Occurs h1OpenTag
      (("<?xml version=\"1.0\" encoding=\"UTF-8\"?>\n<!DOCTYPE html PUBLIC \"-//W3C//DTD XHTML 1.1//EN\" \"http://www.w3.org/TR/xhtml11/DTD/xhtml11.dtd\">\n<html xmlns=\"http://www.w3.org/1999/xhtml\">\n<head>\n    <title>" : String).data
        ++ ((escapeHtml (jsOfOpt a.title)).data
          ++ (("</title>\n" : String).data
            ++ (chapterCssCover.data
              ++ (("</head>\n<body>\n    <div class=\"chapter-number\">Chapter " : String).data
                ++ (natStr (i + 1) ++ ("</div>\n    " : String).data)))))) := by
    refine noOccurs_append_left (noOccurs_of_containsSub (by decide)) (by decide) ?_
    refine noOccurs_append_left (noOccurs_of_head_not_mem rfl he)
      (spanFreeSuffix_of_head_not_mem rfl he) ?_
    refine noOccurs_append_left (noOccurs_of_containsSub (by decide)) (by decide) ?_
    refine noOccurs_append_left (noOccurs_of_containsSub (by decide)) (by decide) ?_
    refine noOccurs_append_left (noOccurs_of_containsSub (by decide)) (by decide) ?_
    refine noOccurs_append_left (noOccurs_of_head_not_mem rfl hdig)
      (spanFreeSuffix_of_head_not_mem rfl hdig) ?_
    exact noOccurs_of_containsSub (by decide)
  have heq : (chapterHtmlCover i a).data
      = (("<?xml version=\"1.0\" encoding=\"UTF-8\"?>\n<!DOCTYPE html PUBLIC \"-//W3C//DTD XHTML 1.1//EN\" \"http://www.w3.org/TR/xhtml11/DTD/xhtml11.dtd\">\n<html xmlns=\"http://www.w3.org/1999/xhtml\">\n<head>\n    <title>" : String).data
          ++ ((escapeHtml (jsOfOpt a.title)).data
            ++ (("</title>\n" : String).data
              ++ (chapterCssCover.data
                ++ (("</head>\n<body>\n    <div class=\"chapter-number\">Chapter " : String).data
                  ++ (natStr (i + 1) ++ ("</div>\n    " : String).data))))))
        ++ h1OpenTag
        ++ ((escapeHtml (jsOfOpt a.title)).data ++ h1CloseTag
          ++ (("\n    <div class=\"chapter-meta\">\n        <p>Source: " : String).data
            ++ ((escapeHtml (jsOfOpt a.siteName)).data
              ++ (("</p>\n        <p>URL: " : String).data
                ++ ((escapeHtml (jsOfOpt a.url)).data
                  ++ (("</p>\n        " : String).data
                    ++ ((chapterWordLine a).data
                      ++ (("\n    </div>\n    " : String).data
                        ++ (a.content.data
                          ++ ("\n</body>\n</html>" : String).data))))))))) := by
    simp [chapterHtmlCover, h1OpenTag, h1CloseTag, natStrS_data, String.data_append,
      List.append_assoc]
  rw [heq]
  exact h1Of_spec _ _ _ hP he

/-- C4 counterexample: in the with-cover browser builder a title holding a
double quote renders in the chapter h1 with the quote unescaped, which
differs from the XML-escaped title (escapeForXml would give the quot
entity), so "the h1 of chapter N equals the XML-escaped title" fails for
the part_001 builders. -/
theorem c4_counterexample :
    (h1Of (chapterHtmlCover 0
        { title := some "A \"quoted\" title", content := "<p>x</p>", excerpt := none,
          siteName := some "s", url := some "u", wordCount := none }).data).map String.mk
      = some "A \"quoted\" title"
    ∧ escapeXml (JSVal.str "A \"quoted\" title") = "A &quot;quoted&quot; title"
    ∧ ("A \"quoted\" title" : String) ≠ "A &quot;quoted&quot; title" :=
  ⟨rfl, rfl, by decide⟩

/-- C4 (amended): in both the API and the with-cover builder the chapter
files OEBPS/chapterN.html, N = 1..articles.length, are emitted in the same
order as the articles array, and the h1 of chapter N is exactly the
escaped title of articles[N-1] — escaped with escapeXml (the full XML
escape) in the server API builder, but with escapeHtml (ampersand and
angle brackets only) in the browser with-cover builder. -/
theorem c4_chapter_order_and_h1 (articles : List Article) (h : articles ≠ [])
    (title author description titleP authorP : String)
    (r1 r2 : Nat → Nat) (date localeDate : String) :
    chapterEntries (generateCollectionEpubForApi articles title author description r1 r2 date)
      = mapIdxFrom (fun index article => zfile (chapterName index) (chapterHtmlApi article))
          0 articles
    ∧ (chapterEntries (generateCollectionEpubForApi articles title author description
          r1 r2 date)).map ZipEntry.name
      = (List.range articles.length).map chapterName
    ∧ chapterEntries (generateCollectionEpubWithCover articles titleP authorP r1 r2
          date localeDate)
      = mapIdxFrom (fun index article =>
          zfile (chapterName index) (chapterHtmlCover index article)) 0 articles
    ∧ (chapterEntries (generateCollectionEpubWithCover articles titleP authorP r1 r2
          date localeDate)).map ZipEntry.name
      = (List.range articles.length).map chapterName
    ∧ (∀ a : Article, h1Of (chapterHtmlApi a).data = some (escapeXml (jsOfOpt a.title)).data)
    ∧ (∀ (i : Nat) (a : Article),
        h1Of (chapterHtmlCover i a).data = some (escapeHtml (jsOfOpt a.title)).data) := by
  refine ⟨chapterEntries_api articles title author description r1 r2 date, ?_,
    chapterEntries_cover articles titleP authorP r1 r2 date localeDate, ?_,
    h1Of_chapterHtmlApi, h1Of_chapterHtmlCover⟩
  · rw [chapterEntries_api articles title author description r1 r2 date, map_mapIdxFrom]
    rw [show (fun j (a : Article) => (zfile (chapterName j) (chapterHtmlApi a)).name)
        = (fun j (_ : Article) => chapterName j) from rfl]
    rw [mapIdxFrom_index_only, List.range_eq_range']
  · rw [chapterEntries_cover articles titleP authorP r1 r2 date localeDate, map_mapIdxFrom]
    rw [show (fun j (a : Article) => (zfile (chapterName j) (chapterHtmlCover j a)).name)
        = (fun j (_ : Article) => chapterName j) from rfl]
    rw [mapIdxFrom_index_only, List.range_eq_range']

/-- Witness for c4_chapter_order_and_h1 at a two-article collection. -/
theorem c4_chapter_order_and_h1_witness :
    (chapterEntries (generateCollectionEpubForApi
        [{ title := some "Fish & Chips", content := "<p>x</p>", excerpt := none,
           siteName := some "s", url := some "u", wordCount := none },
         { title := some "Second", content := "<p>y</p>", excerpt := none,
           siteName := none, url := none, wordCount := some 3 }]
        "T" "A" "" (fun _ => 0) (fun _ => 0) "2024-01-01")).map ZipEntry.name
      = (List.range 2).map chapterName
    ∧ h1Of (chapterHtmlApi
        { title := some "Fish & Chips", content := "<p>x</p>", excerpt := none,
          siteName := some "s", url := some "u", wordCount := none }).data
      = some (escapeXml (jsOfOpt (some "Fish & Chips"))).data :=
  ⟨(c4_chapter_order_and_h1 _ (by simp) "T" "A" "" "T" "A" (fun _ => 0) (fun _ => 0)
      "2024-01-01" "1/1/2024").2.1,
   (c4_chapter_order_and_h1
      [{ title := some "Fish & Chips", content := "<p>x</p>", excerpt := none,
         siteName := some "s", url := some "u", wordCount := none }]
      (by simp) "T" "A" "" "T" "A" (fun _ => 0) (fun _ => 0)
      "2024-01-01" "1/1/2024").2.2.2.2.1 _⟩

/-! ## Claim C5 — playOrder values -/

/-- The playOrder attribute value of a navPoint string: the decimal number
directly after the first occurrence of the attribute opener. -/
def playOrderOf (s : String) : Option Nat := parseNatAfter ("playOrder=\"".data) s.data

/-- The playOrder of the API builder's navPoint for index i is i + 1. -/
theorem playOrderOf_navPointApi (i : Nat) (a : Article) :
    playOrderOf (navPointApi i a) = some (i + 1) := by
  have hdig : ('p' : Char) ∉ natStr (i + 1) := not_mem_natStr (by decide) _
  have hP : ¬ Occurs ("playOrder=\"".data)
      (("\n        <navPoint id=\"navpoint-" : String).data
        ++ (natStr (i + 1) ++ ("\" " : String).data)) := by
    refine noOccurs_append_left (noOccurs_of_containsSub (by decide)) (by decide) ?_
    refine noOccurs_append_left (noOccurs_of_head_not_mem rfl hdig)
      (spanFreeSuffix_of_head_not_mem rfl hdig) ?_
    exact noOccurs_of_containsSub (by decide)
  have heq : (navPointApi i a).data
      = (("\n        <navPoint id=\"navpoint-" : String).data
          ++ (natStr (i + 1) ++ ("\" " : String).data))
        ++ ("playOrder=\"".data)
        ++ (natStr (i + 1)
          ++ (("\">\n            <navLabel>\n                <text>" : String).data
            ++ ((escapeXml (jsOfOpt a.title)).data
              ++ (("</text>\n            </navLabel>\n            <content src=\"chapter" : String).data
                ++ (natStr (i + 1) ++ (".html\"/>\n        </navPoint>" : String).data))))) := by
    simp [navPointApi, natStrS_data, String.data_append, List.append_assoc]
  unfold playOrderOf
  rw [heq]
  exact parseNatAfter_spec _ _ _ (by decide) (by decide) hP
    (headNotDigit_of_append (s := "\">\n            <navLabel>\n                <text>")
      rfl (by decide) _)

/-- The playOrder of the plain browser builder's navPoint for index i is
also i + 1 (the escaping differs, the numbering does not). -/
theorem playOrderOf_navPointP1 (i : Nat) (a : Article) :
    playOrderOf (navPointP1 i a) = some (i + 1) := by
  have hdig : ('p' : Char) ∉ natStr (i + 1) := not_mem_natStr (by decide) _
  have hP : ¬ Occurs ("playOrder=\"".data)
      (("\n        <navPoint id=\"navpoint-" : String).data
        ++ (natStr (i + 1) ++ ("\" " : String).data)) := by
    refine noOccurs_append_left (noOccurs_of_containsSub (by decide)) (by decide) ?_
    refine noOccurs_append_left (noOccurs_of_head_not_mem rfl hdig)
      (spanFreeSuffix_of_head_not_mem rfl hdig) ?_
    exact noOccurs_of_containsSub (by decide)
  have heq : (navPointP1 i a).data
      = (("\n        <navPoint id=\"navpoint-" : String).data
          ++ (natStr (i + 1) ++ ("\" " : String).data))
        ++ ("playOrder=\"".data)
        ++ (natStr (i + 1)
          ++ (("\">\n            <navLabel>\n                <text>" : String).data
            ++ ((escapeHtml (jsOfOpt a.title)).data
              ++ (("</text>\n            </navLabel>\n            <content src=\"chapter" : String).data
                ++ (natStr (i + 1) ++ (".html\"/>\n        </navPoint>" : String).data))))) := by
    simp [navPointP1, natStrS_data, String.data_append, List.append_assoc]
  unfold playOrderOf
  rw [heq]
  exact parseNatAfter_spec _ _ _ (by decide) (by decide) hP
    (headNotDigit_of_append (s := "\">\n            <navLabel>\n                <text>")
      rfl (by decide) _)

/-- The playOrder of the with-cover builder's chapter navPoint for index i
is i + 2 (offset by the table-of-contents page). -/
theorem playOrderOf_navPointCover (i : Nat) (a : Article) :
    playOrderOf (navPointCover i a) = some (i + 2) := by
  have hdig : ('p' : Char) ∉ natStr (i + 1) := not_mem_natStr (by decide) _
  have hP : ¬ Occurs ("playOrder=\"".data)
      (("\n            <navPoint id=\"navpoint-" : String).data
        ++ (natStr (i + 1) ++ ("\" " : String).data)) := by
    refine noOccurs_append_left (noOccurs_of_containsSub (by decide)) (by decide) ?_
    refine noOccurs_append_left (noOccurs_of_head_not_mem rfl hdig)
      (spanFreeSuffix_of_head_not_mem rfl hdig) ?_
    exact noOccurs_of_containsSub (by decide)
  have heq : (navPointCover i a).data
      = (("\n            <navPoint id=\"navpoint-" : String).data
          ++ (natStr (i + 1) ++ ("\" " : String).data))
        ++ ("playOrder=\"".data)
        ++ (natStr (i + 2)
          ++ (("\">\n                <navLabel><text>" : String).data
            ++ ((escapeHtml (jsOfOpt a.title)).data
              ++ (("</text></navLabel>\n                <content src=\"chapter" : String).data
                ++ (natStr (i + 1) ++ (".html\"/>\n            </navPoint>" : String).data))))) := by
    simp [navPointCover, natStrS_data, String.data_append, List.append_assoc]
  unfold playOrderOf
  rw [heq]
  exact parseNatAfter_spec _ _ _ (by decide) (by decide) hP
    (headNotDigit_of_append (s := "\">\n                <navLabel><text>")
      rfl (by decide) _)

/-- C5: for every non-empty collection the navPoints of the generated
toc.ncx carry strictly increasing consecutive playOrder values starting at
1: the plain builders emit exactly articles.length navPoints with
playOrder 1..N in article order, and the with-cover builder emits the
table-of-contents navPoint with playOrder 1 followed by the chapter
navPoints with playOrder 2..N+1, articles.length + 1 navPoints in all. -/
theorem c5_playorders (articles : List Article) (h : articles ≠ []) :
    (navPointsApi articles).map playOrderOf
      = (List.range articles.length).map (fun i => some (i + 1))
    ∧ (navPointsApi articles).length = articles.length
    ∧ (navPointsP1 articles).map playOrderOf
      = (List.range articles.length).map (fun i => some (i + 1))
    ∧ (navPointsP1 articles).length = articles.length
    ∧ (navPointsCover articles).map playOrderOf
      = some 1 :: (List.range articles.length).map (fun i => some (i + 2))
    ∧ (navPointsCover articles).length = articles.length + 1 := by
  refine ⟨?_, length_mapIdxFrom _ _ _, ?_, length_mapIdxFrom _ _ _, ?_, ?_⟩
  · rw [navPointsApi, map_mapIdxFrom,
      mapIdxFrom_congr (fun i a => playOrderOf_navPointApi i a),
      mapIdxFrom_index_only, List.range_eq_range']
  · rw [navPointsP1, map_mapIdxFrom,
      mapIdxFrom_congr (fun i a => playOrderOf_navPointP1 i a),
      mapIdxFrom_index_only, List.range_eq_range']
  · rw [navPointsCover, List.map_cons, map_mapIdxFrom,
      mapIdxFrom_congr (fun i a => playOrderOf_navPointCover i a),
      mapIdxFrom_index_only, List.range_eq_range']
    rfl
  · rw [navPointsCover, List.length_cons, length_mapIdxFrom]

/-- Witness for c5_playorders at a two-article collection. -/
theorem c5_playorders_witness :
    (navPointsCover
        [{ title := some "A", content := "a", excerpt := none, siteName := none,
           url := none, wordCount := none },
         { title := some "B", content := "b", excerpt := none, siteName := none,
           url := none, wordCount := none }]).map playOrderOf
      = some 1 :: (List.range 2).map (fun i => some (i + 2)) :=
  (c5_playorders _ (by simp)).2.2.2.2.1

/-! ## Claim C6 — absent title and site name -/

theorem occurs_mono_left {pat u v : List Char} (h : Occurs pat v) :
    Occurs pat (u ++ v) := by
  rcases h with ⟨x, y, rfl⟩
  exact ⟨u ++ x, y, by simp [List.append_assoc]⟩

/-- C6 counterexample: an article with absent title and absent siteName
builds fine, but the chapter renders an empty h1 and an empty Source line;
the literal strings Untitled Article and unknown appear nowhere in the
chapter (those fallbacks live in the extraction endpoints, not in the
builders). -/
theorem c6_counterexample :
    (h1Of (chapterHtmlApi
        { title := none, content := "<p>body</p>", excerpt := none, siteName := none,
          url := some "http://example.com/a", wordCount := none }).data).map String.mk
      = some ""
    ∧ containsSub "Untitled Article".data (chapterHtmlApi
        { title := none, content := "<p>body</p>", excerpt := none, siteName := none,
          url := some "http://example.com/a", wordCount := none }).data = false
    ∧ containsSub "unknown".data (chapterHtmlApi
        { title := none, content := "<p>body</p>", excerpt := none, siteName := none,
          url := some "http://example.com/a", wordCount := none }).data = false
    ∧ (h1Of (chapterHtmlCover 0
        { title := none, content := "<p>body</p>", excerpt := none, siteName := none,
          url := some "http://example.com/a", wordCount := none }).data).map String.mk
      = some ""
    ∧ containsSub "Untitled Article".data (chapterHtmlCover 0
        { title := none, content := "<p>body</p>", excerpt := none, siteName := none,
          url := some "http://example.com/a", wordCount := none }).data = false :=
  ⟨rfl, rfl, rfl, rfl, rfl⟩

/-- C6 (amended): the builders do not throw on an article with absent
title and siteName (they are total functions of the article), but the
chapter does not render the literals Untitled Article and unknown: the
escaping guard turns the absent fields into empty strings, so the h1 is
empty and the metadata line reads just p-Source-colon — those fallbacks
are applied upstream by the extraction endpoints, not by the builders. -/
theorem c6_absent_fields (a : Article) (ht : a.title = none) (hs : a.siteName = none) :
    h1Of (chapterHtmlApi a).data = some []
    ∧ Occurs ("<p>Source: </p>".data) (chapterHtmlApi a).data
    ∧ (∀ i : Nat, h1Of (chapterHtmlCover i a).data = some []) := by
  have htitle : escapeXml (jsOfOpt a.title) = "" := by rw [ht]; rfl
  have htitleH : escapeHtml (jsOfOpt a.title) = "" := by rw [ht]; rfl
  have hsite : escapeXml (jsOfOpt a.siteName) = "" := by rw [hs]; rfl
  refine ⟨?_, ?_, ?_⟩
  · rw [h1Of_chapterHtmlApi, htitle]
  · have hsplit1 : ("\n    <div class=\"chapter-meta\">\n        <p>Source: " : String).data
        = ("\n    <div class=\"chapter-meta\">\n        " : String).data
          ++ ("<p>Source: " : String).data := by decide
    have hsplit2 : ("</p>\n        <p>URL: " : String).data
        = ("</p>" : String).data ++ ("\n        <p>URL: " : String).data := by decide
    have hsplit3 : ("<p>Source: </p>" : String).data
        = ("<p>Source: " : String).data ++ ("</p>" : String).data := by decide
    refine ⟨(("<?xml version=\"1.0\" encoding=\"UTF-8\"?>\n<!DOCTYPE html PUBLIC \"-//W3C//DTD XHTML 1.1//EN\" \"http://www.w3.org/TR/xhtml11/DTD/xhtml11.dtd\">\n<html xmlns=\"http://www.w3.org/1999/xhtml\">\n<head>\n    <title>" : String).data
        ++ ((escapeXml (jsOfOpt a.title)).data
          ++ (("</title>\n" : String).data
            ++ (chapterCssApi.data
              ++ (("</head>\n<body>\n    " : String).data
                ++ (("<h1>" : String).data
                  ++ ((escapeXml (jsOfOpt a.title)).data
                    ++ (("</h1>" : String).data
                      ++ ("\n    <div class=\"chapter-meta\">\n        " : String).data)))))))),
      (("\n        <p>URL: " : String).data
        ++ ((escapeXml (jsOfOpt a.url)).data
          ++ (("</p>\n        " : String).data
            ++ ((chapterWordLine a).data
              ++ (("\n    </div>\n    " : String).data
                ++ (a.content.data ++ ("\n</body>\n</html>" : String).data)))))), ?_⟩
    simp [chapterHtmlApi, hsite, hsplit1, hsplit2, hsplit3, String.data_append,
      List.append_assoc]
  · intro i
    rw [h1Of_chapterHtmlCover, htitleH]

/-- Witness for c6_absent_fields at a concrete article. -/
theorem c6_absent_fields_witness :
    h1Of (chapterHtmlApi
        { title := none, content := "<p>z</p>", excerpt := none, siteName := none,
          url := none, wordCount := none }).data = some []
    ∧ Occurs ("<p>Source: </p>".data) (chapterHtmlApi
        { title := none, content := "<p>z</p>", excerpt := none, siteName := none,
          url := none, wordCount := none }).data :=
  ⟨(c6_absent_fields _ rfl rfl).1, (c6_absent_fields _ rfl rfl).2.1⟩

/-! ## Claim C7 — the estimated page count -/

/-- The total word count the claim specifies: the sum of the articles'
wordCount values. -/
def specTotalWords (articles : List Article) : Nat :=
  (articles.map (fun a => a.wordCount.getD 0)).sum

/-- The page count the claim specifies: ceil(totalWords / 250), written
as (totalWords + 249) / 250 over the naturals. -/
def specPageCount (articles : List Article) : Nat :=
  (specTotalWords articles + 249) / 250

/-- The attribute opener in front of the totalPageCount value in toc.ncx. -/
def tpcPattern : List Char := "totalPageCount\" content=\"".data

/-- The dtb:totalPageCount value carried by a generated toc.ncx. -/
def totalPageCountOf (s : String) : Option Nat := parseNatAfter tpcPattern s.data

/-- C7 counterexample: an article with wordCount present but 0 is counted
as 1000 words by the builder (JavaScript OR), so toc.ncx carries
totalPageCount 4 where ceil(totalWords / 250) = ceil(0 / 250) = 0. -/
theorem c7_counterexample :
    totalPageCountOf (tocNcxApi
        [{ title := some "T", content := "c", excerpt := none, siteName := none,
           url := none, wordCount := some 0 }] "T" (generateUuid (fun _ => 0)))
      = some 4
    ∧ specTotalWords
        [{ title := some "T", content := "c", excerpt := none, siteName := none,
           url := none, wordCount := some 0 }] = 0
    ∧ specPageCount
        [{ title := some "T", content := "c", excerpt := none, siteName := none,
           url := none, wordCount := some 0 }] = 0
    ∧ (4 : Nat) ≠ 0 :=
  ⟨rfl, rfl, rfl, by decide⟩

theorem totalWords_eq_spec {articles : List Article}
    (hw : ∀ a ∈ articles, ∃ w, a.wordCount = some w ∧ 0 < w) :
    totalWordsApi articles = specTotalWords articles := by
  unfold totalWordsApi specTotalWords
  induction articles with
  | nil => rfl
  | cons a t ih =>
    rcases hw a (by simp) with ⟨w, hwa, hw0⟩
    have hfold : ∀ (l : List Article) (acc : Nat),
        l.foldl (fun sum article => sum + wordCountOr1000 article) acc
          = acc + l.foldl (fun sum article => sum + wordCountOr1000 article) 0 := by
      intro l
      induction l with
      | nil => intro acc; simp
      | cons b u ihl =>
        intro acc
        simp only [List.foldl_cons]
        rw [ihl (acc + wordCountOr1000 b), ihl (0 + wordCountOr1000 b)]
        omega
    have hwc : wordCountOr1000 a = a.wordCount.getD 0 := by
      rw [wordCountOr1000, hwa]
      simp [Nat.pos_iff_ne_zero.mp hw0]
    simp only [List.foldl_cons, List.map_cons, List.sum_cons]
    rw [hfold t (0 + wordCountOr1000 a), ih (fun b hb => hw b (by simp [hb])), hwc]
    omega

theorem specTotalWords_pos {articles : List Article} (h : articles ≠ [])
    (hw : ∀ a ∈ articles, ∃ w, a.wordCount = some w ∧ 0 < w) :
    1 ≤ specTotalWords articles := by
  cases articles with
  | nil => exact absurd rfl h
  | cons a t =>
    rcases hw a (by simp) with ⟨w, hwa, hw0⟩
    unfold specTotalWords
    simp only [List.map_cons, List.sum_cons, hwa, Option.getD_some]
    omega

/-- C7 (amended): when the collection is non-empty and every article
carries a positive wordCount, the dtb:totalPageCount written into the API
builder's toc.ncx equals ceil(totalWords / 250); an absent or zero
wordCount is counted as 1000 words instead, and the value is floored at 1.
The value is advisory only: the archive's entry list (one chapterN.html
per article plus the fixed container files) is a function of the article
count alone, never of the word counts. -/
theorem c7_pagecount (articles : List Article) (t : String) (r2 : Nat → Nat)
    (h : articles ≠ [])
    (hw : ∀ a ∈ articles, ∃ w, a.wordCount = some w ∧ 0 < w) :
    totalPageCountOf (tocNcxApi articles t (generateUuid r2))
      = some (specPageCount articles)
    ∧ ∀ (title author description : String) (r1 r2' : Nat → Nat) (date : String),
        (generateCollectionEpubForApi articles title author description r1 r2'
            date).map ZipEntry.name
          = ["mimetype", "META-INF/", "META-INF/container.xml", "OEBPS/",
             "OEBPS/content.opf", "OEBPS/toc.ncx"]
            ++ (List.range articles.length).map chapterName := by
  constructor
  · have htnm : ('t' : Char) ∉ (generateUuid r2).data :=
      not_mem_of_charset (generateUuid_chars r2) (by decide)
    have hP : ¬ Occurs tpcPattern
        (("<?xml version=\"1.0\" encoding=\"UTF-8\"?>\n<ncx xmlns=\"http://www.daisy.org/z3986/2005/ncx/\" version=\"2005-1\">\n    <head>\n        <meta name=\"dtb:uid\" content=\"" : String).data
          ++ ((generateUuid r2).data
            ++ ("\"/>\n        <meta name=\"dtb:depth\" content=\"1\"/>\n        <meta name=\"dtb:" : String).data)) := by
      refine noOccurs_append_left (noOccurs_of_containsSub (by decide)) (by decide) ?_
      refine noOccurs_append_left (noOccurs_of_head_not_mem rfl htnm)
        (spanFreeSuffix_of_head_not_mem rfl htnm) ?_
      exact noOccurs_of_containsSub (by decide)
    have heq : (tocNcxApi articles t (generateUuid r2)).data
        = (("<?xml version=\"1.0\" encoding=\"UTF-8\"?>\n<ncx xmlns=\"http://www.daisy.org/z3986/2005/ncx/\" version=\"2005-1\">\n    <head>\n        <meta name=\"dtb:uid\" content=\"" : String).data
            ++ ((generateUuid r2).data
              ++ ("\"/>\n        <meta name=\"dtb:depth\" content=\"1\"/>\n        <meta name=\"dtb:" : String).data))
          ++ tpcPattern
          ++ (natStr (estimatedPagesApi articles)
            ++ (("\"/>\n        <meta name=\"dtb:maxPageNumber\" content=\"" : String).data
              ++ (natStr (estimatedPagesApi articles)
                ++ (("\"/>\n    </head>\n    <docTitle>\n        <text>" : String).data
                  ++ ((escapeXml (JSVal.str t)).data
                    ++ (("</text>\n    </docTitle>\n    <navMap>" : String).data
                      ++ ((String.join (navPointsApi articles)).data
                        ++ ("\n    </navMap>\n</ncx>" : String).data))))))) := by
      simp [tocNcxApi, tpcPattern, natStrS_data, String.data_append, List.append_assoc]
    have hparse : totalPageCountOf (tocNcxApi articles t (generateUuid r2))
        = some (estimatedPagesApi articles) := by
      unfold totalPageCountOf
      rw [heq]
      exact parseNatAfter_spec _ _ _ (by decide) (by decide) hP
        (headNotDigit_of_append
          (s := "\"/>\n        <meta name=\"dtb:maxPageNumber\" content=\"")
          rfl (by decide) _)
    rw [hparse]
    have hE : estimatedPagesApi articles = specPageCount articles := by
      unfold estimatedPagesApi specPageCount
      rw [totalWords_eq_spec hw]
      have h1 : 1 ≤ specTotalWords articles := specTotalWords_pos h hw
      omega
    rw [hE]
  · intro title author description r1 r2' date
    unfold generateCollectionEpubForApi
    rw [List.map_append]
    congr 1
    rw [map_mapIdxFrom]
    rw [show (fun j (a : Article) => (zfile (chapterName j) (chapterHtmlApi a)).name)
        = (fun j (_ : Article) => chapterName j) from rfl]
    rw [mapIdxFrom_index_only, List.range_eq_range']

/-- Witness for c7_pagecount at a two-article collection with 250 and 300
words: totalPageCount is ceil(550 / 250) = 3. -/
theorem c7_pagecount_witness :
    totalPageCountOf (tocNcxApi
        [{ title := some "T1", content := "c", excerpt := none, siteName := none,
           url := none, wordCount := some 250 },
         { title := some "T2", content := "c", excerpt := none, siteName := none,
           url := none, wordCount := some 300 }] "T" (generateUuid (fun _ => 0)))
      = some (specPageCount
        [{ title := some "T1", content := "c", excerpt := none, siteName := none,
           url := none, wordCount := some 250 },
         { title := some "T2", content := "c", excerpt := none, siteName := none,
           url := none, wordCount := some 300 }])
    ∧ specPageCount
        [{ title := some "T1", content := "c", excerpt := none, siteName := none,
           url := none, wordCount := some 250 },
         { title := some "T2", content := "c", excerpt := none, siteName := none,
           url := none, wordCount := some 300 }] = 3 :=
  ⟨(c7_pagecount _ "T" (fun _ => 0) (by simp)
      (by
        intro a ha
        rcases List.mem_cons.mp ha with h1 | h1
        · exact ⟨250, by rw [h1], by omega⟩
        · rw [List.mem_singleton] at h1
          exact ⟨300, by rw [h1], by omega⟩)).1,
   rfl⟩

/-! ## Claim C9 — filename validation of the library endpoints -/

theorem occurs_mono_right {pat u v : List Char} (h : Occurs pat u) :
    Occurs pat (u ++ v) := by
  rcases h with ⟨x, y, rfl⟩
  exact ⟨x, y ++ v, by simp [List.append_assoc]⟩

theorem occurs_singleton {c : Char} {l : List Char} : Occurs [c] l ↔ c ∈ l := by
  constructor
  · rintro ⟨u, v, rfl⟩
    simp
  · intro h
    rcases List.append_of_mem h with ⟨x, y, rfl⟩
    exact ⟨x, y, by simp⟩

theorem firstOcc_prefix {pat s : List Char} {i : Nat} (h : firstOcc pat s = some i) :
    pat <+: s.drop i := by
  induction s generalizing i with
  | nil =>
    unfold firstOcc at h
    by_cases hp : pat = []
    · rw [if_pos hp] at h
      rcases Option.some.injEq 0 i ▸ h with h'
      simp only [Option.some.injEq] at h'
      subst h'
      simp [hp]
    · rw [if_neg hp] at h
      cases h
  | cons c t ih =>
    unfold firstOcc at h
    by_cases hp : pat.isPrefixOf (c :: t)
    · rw [if_pos hp] at h
      simp only [Option.some.injEq] at h
      subst h
      simpa using List.isPrefixOf_iff_prefix.mp hp
    · rw [if_neg hp] at h
      cases ho : firstOcc pat t with
      | none => rw [ho] at h; cases h
      | some j =>
        rw [ho] at h
        simp only [Option.map_some', Option.some.injEq] at h
        subst h
        simpa [List.drop_succ_cons] using ih ho

theorem firstOcc_decomp {pat s : List Char} {i : Nat} (h : firstOcc pat s = some i) :
    s = s.take i ++ pat ++ s.drop (i + pat.length) := by
  rcases firstOcc_prefix h with ⟨q, hq⟩
  have hdrop : s.drop (i + pat.length) = q := by
    have h1 : s.drop (i + pat.length) = (s.drop i).drop pat.length := by
      rw [List.drop_drop, Nat.add_comm]
    rw [h1, ← hq, List.drop_left]
  rw [hdrop]
  calc s = s.take i ++ s.drop i := (List.take_append_drop i s).symm
  _ = s.take i ++ (pat ++ q) := by rw [hq]
  _ = s.take i ++ pat ++ q := by rw [List.append_assoc]

theorem replaceFirst_eq_none {pat rep s : List Char} (h : firstOcc pat s = none) :
    replaceFirst pat rep s = s := by
  unfold replaceFirst
  rw [h]

theorem replaceFirst_eq_some {pat rep s : List Char} {i : Nat}
    (h : firstOcc pat s = some i) :
    replaceFirst pat rep s = s.take i ++ rep ++ s.drop (i + pat.length) := by
  unfold replaceFirst
  rw [h]

theorem replaceFirst_json_no_slash {f : List Char} (h3 : ¬ Occurs ['/'] f) :
    ¬ Occurs ['/'] (replaceFirst ".epub".data ".json".data f) := by
  cases ho : firstOcc ".epub".data f with
  | none => rw [replaceFirst_eq_none ho]; exact h3
  | some i =>
    rw [replaceFirst_eq_some ho]
    intro hocc
    have hmem := occurs_singleton.mp hocc
    refine h3 (occurs_singleton.mpr ?_)
    rcases List.mem_append.mp hmem with hm | hm
    · rcases List.mem_append.mp hm with hm' | hm'
      · exact List.take_subset i f hm'
      · exact absurd hm' (by decide)
    · exact List.drop_subset _ f hm

theorem replaceFirst_json_no_dotdot {f : List Char} (h2 : ¬ Occurs "..".data f) :
    ¬ Occurs "..".data (replaceFirst ".epub".data ".json".data f) := by
  cases ho : firstOcc ".epub".data f with
  | none => rw [replaceFirst_eq_none ho]; exact h2
  | some i =>
    rw [replaceFirst_eq_some ho]
    intro hocc
    have hdecomp := firstOcc_decomp ho
    rw [List.append_assoc] at hocc
    rcases occurs_append_cases hocc with hA | hBC | ⟨k, hk0, hklen, hsuf, hpre⟩
    · -- occurrence inside the preserved prefix
      refine h2 ?_
      rw [hdecomp, List.append_assoc]
      exact occurs_mono_right hA
    · rcases occurs_append_cases hBC with hJ | hB | ⟨k, hk0, hklen, hsuf, hpre⟩
      · exact absurd hJ (by decide)
      · -- occurrence inside the preserved suffix
        refine h2 ?_
        rw [hdecomp]
        exact occurs_mono_left hB
      · -- would need a dot at the end of .json
        have hk1 : k = 1 := by
          have : ("..".data).length = 2 := rfl
          omega
        subst hk1
        exact absurd hsuf (by decide)
    · -- a dot at the end of the prefix: then f itself held dot-dot
      have hk1 : k = 1 := by
        have : ("..".data).length = 2 := rfl
        omega
      subst hk1
      rcases hsuf with ⟨A', hA'⟩
      refine h2 ⟨A', "epub".data ++ f.drop (i + (".epub".data).length), ?_⟩
      conv_lhs => rw [hdecomp]
      rw [← hA']
      rw [show (".epub".data) = '.' :: "epub".data from rfl,
        show ("..".data) = ['.', '.'] from rfl,
        show (List.take 1 "..".data) = ['.'] from rfl]
      simp [List.append_assoc]

/-- C9: requests to the EPUB download and delete endpoints whose filename
does not end in .epub, or contains a parent reference, or contains a
slash, are rejected with status 400 before any filesystem access; in all
other cases every path touched has the form EPUBS_DIR/userId/g for a
segment g free of slashes and parent references — the requesting user's
own directory. -/
theorem c9_path_safety (epubsDir userId filename : String) :
    ((strEndsWith ".epub" filename = false ∨ strIncludes ".." filename = true
        ∨ strIncludes "/" filename = true) →
      getEpubHandler epubsDir userId filename = EpubRequestOutcome.reject 400
      ∧ deleteEpubHandler epubsDir userId filename = EpubRequestOutcome.reject 400)
    ∧ (∀ ps, (getEpubHandler epubsDir userId filename = EpubRequestOutcome.fsAccess ps
          ∨ deleteEpubHandler epubsDir userId filename = EpubRequestOutcome.fsAccess ps) →
        ∀ p ∈ ps, ∃ g : String, p = epubsDir ++ "/" ++ userId ++ "/" ++ g
          ∧ strIncludes ".." g = false ∧ strIncludes "/" g = false) := by
  constructor
  · intro hbad
    have hval : epubFilenameValid filename = false := by
      unfold epubFilenameValid
      rcases hbad with h | h | h <;> simp [h]
    unfold getEpubHandler deleteEpubHandler
    rw [if_neg (by simp [hval]), if_neg (by simp [hval])]
    exact ⟨rfl, rfl⟩
  · intro ps hps p hp
    by_cases hval : epubFilenameValid filename = true
    · have hparts : strIncludes ".." filename = false ∧ strIncludes "/" filename = false := by
        unfold epubFilenameValid at hval
        simp only [Bool.and_eq_true, Bool.not_eq_true'] at hval
        exact ⟨hval.1.2, hval.2⟩
      rcases hps with hget | hdel
      · unfold getEpubHandler at hget
        rw [if_pos hval] at hget
        simp only [EpubRequestOutcome.fsAccess.injEq] at hget
        subst hget
        rw [List.mem_singleton] at hp
        subst hp
        exact ⟨filename, rfl, hparts.1, hparts.2⟩
      · unfold deleteEpubHandler at hdel
        rw [if_pos hval] at hdel
        simp only [EpubRequestOutcome.fsAccess.injEq] at hdel
        subst hdel
        rcases List.mem_cons.mp hp with hp1 | hp1
        · subst hp1
          exact ⟨filename, rfl, hparts.1, hparts.2⟩
        · rw [List.mem_singleton] at hp1
          subst hp1
          refine ⟨String.mk (replaceFirst ".epub".data ".json".data filename.data),
            rfl, ?_, ?_⟩
          · exact containsSub_eq_false_iff.mpr
              (replaceFirst_json_no_dotdot
                (containsSub_eq_false_iff.mp hparts.1))
          · show containsSub ['/'] _ = false
            exact containsSub_eq_false_iff.mpr
              (replaceFirst_json_no_slash
                (containsSub_eq_false_iff.mp (by exact hparts.2)))
    · have hval' : epubFilenameValid filename = false := by
        cases h : epubFilenameValid filename
        · rfl
        · exact absurd h hval
      rcases hps with hget | hdel
      · unfold getEpubHandler at hget
        rw [if_neg (by simp [hval'])] at hget
        cases hget
      · unfold deleteEpubHandler at hdel
        rw [if_neg (by simp [hval'])] at hdel
        cases hdel

/-- Witness for c9_path_safety: a traversal attempt is rejected, and a
valid delete only touches the user's own directory. -/
theorem c9_path_safety_witness :
    (getEpubHandler "/data/epubs" "user1" "../../etc/passwd.epub"
        = EpubRequestOutcome.reject 400
      ∧ deleteEpubHandler "/data/epubs" "user1" "../../etc/passwd.epub"
        = EpubRequestOutcome.reject 400)
    ∧ ∃ g : String, "/data/epubs/user1/notes.epub" = "/data/epubs" ++ "/" ++ "user1" ++ "/" ++ g
        ∧ strIncludes ".." g = false ∧ strIncludes "/" g = false :=
  ⟨(c9_path_safety "/data/epubs" "user1" "../../etc/passwd.epub").1
      (Or.inr (Or.inl (by decide))),
   (c9_path_safety "/data/epubs" "user1" "notes.epub").2
      ["/data/epubs/user1/notes.epub"] (Or.inl rfl)
      "/data/epubs/user1/notes.epub" (by simp)⟩

/-! ## Claim C10 — trackConvertedUrl invariants -/

/-- Number of store entries of a given user and URL. -/
def userPairCount (urls : List UrlEntry) (uid url : String) : Nat :=
  (urls.filter (fun entry => entry.userId == uid && entry.url == url)).length

/-- Number of store entries of a given user. -/
def userCount (urls : List UrlEntry) (uid : String) : Nat :=
  (urls.filter (fun entry => entry.userId == uid)).length

/-- At most one entry per (user, URL) pair. -/
def DedupInvariant (urls : List UrlEntry) : Prop :=
  ∀ uid url, userPairCount urls uid url ≤ 1

instance : IsTrans UrlEntry moreRecent :=
  ⟨fun _ _ _ hab hbc => Nat.le_trans hbc hab⟩

instance : IsTotal UrlEntry moreRecent :=
  ⟨fun a b => Nat.le_total b.convertedAt a.convertedAt⟩

/-- After dedup and push, the store holds at most one entry per pair,
provided it did before. -/
theorem pairCount_pushed {urls : List UrlEntry} (e : UrlEntry)
    (hinv : DedupInvariant urls) (uid url : String) :
    userPairCount (pushedUrls urls e) uid url ≤ 1 := by
  unfold userPairCount pushedUrls
  rw [List.filter_append, List.length_append]
  by_cases hpair : (e.userId == uid && e.url == url) = true
  · have heq : e.userId = uid ∧ e.url = url := by
      simpa [Bool.and_eq_true, beq_iff_eq] using hpair
    have hd : (dedupedUrls urls e).filter
        (fun entry => entry.userId == uid && entry.url == url) = [] := by
      apply List.filter_eq_nil_iff.mpr
      intro a ha
      have hnd : ¬a.url = e.url ∨ ¬a.userId = e.userId := by
        simpa [Bool.and_eq_true, beq_iff_eq] using List.of_mem_filter ha
      intro hcon
      have hcon' : a.userId = uid ∧ a.url = url := by
        simpa [Bool.and_eq_true, beq_iff_eq] using hcon
      rcases hnd with h | h
      · exact h (by rw [hcon'.2, heq.2])
      · exact h (by rw [hcon'.1, heq.1])
    rw [hd]
    simp [heq.1, heq.2]
  · have he : [e].filter (fun entry => entry.userId == uid && entry.url == url) = [] := by
      simp only [List.filter_cons, List.filter_nil]
      rw [if_neg (by simp [hpair])]
    rw [he]
    have hsub : ((dedupedUrls urls e).filter
          (fun entry => entry.userId == uid && entry.url == url)).length
        ≤ (urls.filter (fun entry => entry.userId == uid && entry.url == url)).length :=
      ((List.filter_sublist urls).filter _).length_le
    have hu := hinv uid url
    unfold userPairCount at hu
    simp only [List.length_nil, Nat.add_zero]
    omega

/-- Every element of the kept slice belongs to the user's candidate list. -/
theorem mem_keep_subset {urls : List UrlEntry} {e : UrlEntry} {x : UrlEntry}
    (hx : x ∈ (List.insertionSort moreRecent (userUrlsAfterPush urls e)).take 1000) :
    x ∈ userUrlsAfterPush urls e := by
  have h1 : x ∈ List.insertionSort moreRecent (userUrlsAfterPush urls e) :=
    List.take_subset _ _ hx
  exact (List.perm_insertionSort moreRecent (userUrlsAfterPush urls e)).mem_iff.mp h1

/-- Elements of the user's candidate list carry the user's id. -/
theorem mem_userUrls_userId {urls : List UrlEntry} {e : UrlEntry} {x : UrlEntry}
    (hx : x ∈ userUrlsAfterPush urls e) : x.userId = e.userId := by
  have := List.of_mem_filter hx
  simpa [beq_iff_eq] using this

/-- C10 part (a): the dedup invariant is preserved by trackConvertedUrl. -/
theorem trackKeepsDedup (urls : List UrlEntry) (e : UrlEntry)
    (hinv : DedupInvariant urls) : DedupInvariant (trackConvertedUrl urls e) := by
  intro uid url
  unfold trackConvertedUrl
  by_cases hcap : 1000 < (userUrlsAfterPush urls e).length
  · rw [if_pos hcap]
    unfold userPairCount
    rw [List.filter_append, List.length_append]
    by_cases huid : uid = e.userId
    · have h1 : ((pushedUrls urls e).filter (fun entry => entry.userId != e.userId)).filter
          (fun entry => entry.userId == uid && entry.url == url) = [] := by
        apply List.filter_eq_nil_iff.mpr
        intro a ha
        have hne : a.userId ≠ e.userId := by
          simpa [bne_iff_ne] using List.of_mem_filter ha
        simp [huid, beq_iff_eq, hne]
      rw [h1]
      have h2 : (((List.insertionSort moreRecent (userUrlsAfterPush urls e)).take
            1000).filter (fun entry => entry.userId == uid && entry.url == url)).length
          ≤ userPairCount (pushedUrls urls e) uid url := by
        rw [userPairCount, ← List.countP_eq_length_filter, ← List.countP_eq_length_filter]
        calc ((List.insertionSort moreRecent (userUrlsAfterPush urls e)).take
              1000).countP (fun entry => entry.userId == uid && entry.url == url)
            ≤ (List.insertionSort moreRecent (userUrlsAfterPush urls e)).countP
              (fun entry => entry.userId == uid && entry.url == url) :=
              (List.take_sublist _ _).countP_le _
          _ = (userUrlsAfterPush urls e).countP
              (fun entry => entry.userId == uid && entry.url == url) :=
              (List.perm_insertionSort moreRecent _).countP_eq _
          _ ≤ (pushedUrls urls e).countP
              (fun entry => entry.userId == uid && entry.url == url) :=
              (List.filter_sublist _).countP_le _
      have h3 := pairCount_pushed e hinv uid url
      simp only [List.length_nil, Nat.zero_add]
      omega
    · have h1 : (((List.insertionSort moreRecent (userUrlsAfterPush urls e)).take
          1000).filter (fun entry => entry.userId == uid && entry.url == url)) = [] := by
        apply List.filter_eq_nil_iff.mpr
        intro a ha
        have haid : a.userId = e.userId := mem_userUrls_userId (mem_keep_subset ha)
        intro hcon
        have hcon' : a.userId = uid ∧ a.url = url := by
          simpa [Bool.and_eq_true, beq_iff_eq] using hcon
        exact huid (by rw [← hcon'.1, haid])
      rw [h1]
      have h2 : (((pushedUrls urls e).filter (fun entry => entry.userId != e.userId)).filter
            (fun entry => entry.userId == uid && entry.url == url)).length
          ≤ userPairCount (pushedUrls urls e) uid url := by
        unfold userPairCount
        exact ((List.filter_sublist _).filter _).length_le
      have h3 := pairCount_pushed e hinv uid url
      simp only [List.length_nil, Nat.add_zero]
      omega
  · rw [if_neg hcap]
    exact pairCount_pushed e hinv uid url

/-- C10 part (b): after a call, the tracked user holds at most 1000
entries. -/
theorem trackUserCount (urls : List UrlEntry) (e : UrlEntry) :
    userCount (trackConvertedUrl urls e) e.userId ≤ 1000 := by
  unfold trackConvertedUrl
  by_cases hcap : 1000 < (userUrlsAfterPush urls e).length
  · rw [if_pos hcap]
    unfold userCount
    rw [List.filter_append, List.length_append]
    have h1 : ((pushedUrls urls e).filter (fun entry => entry.userId != e.userId)).filter
        (fun entry => entry.userId == e.userId) = [] := by
      apply List.filter_eq_nil_iff.mpr
      intro a ha
      have hne : a.userId ≠ e.userId := by
        simpa [bne_iff_ne] using List.of_mem_filter ha
      simp [beq_iff_eq, hne]
    have h2 : ((List.insertionSort moreRecent (userUrlsAfterPush urls e)).take
          1000).filter (fun entry => entry.userId == e.userId)
        = (List.insertionSort moreRecent (userUrlsAfterPush urls e)).take 1000 := by
      apply List.filter_eq_self.mpr
      intro a ha
      have haid : a.userId = e.userId := mem_userUrls_userId (mem_keep_subset ha)
      simp [beq_iff_eq, haid]
    rw [h1, h2]
    have h3 : ((List.insertionSort moreRecent (userUrlsAfterPush urls e)).take
        1000).length ≤ 1000 := List.length_take_le _ _
    simp only [List.length_nil, Nat.zero_add]
    omega
  · rw [if_neg hcap]
    have : userCount (pushedUrls urls e) e.userId = (userUrlsAfterPush urls e).length := rfl
    omega

/-- C10 part (c): when entries are evicted, every evicted entry of the
user is at most as recent as every kept one. -/
theorem trackRecency (urls : List UrlEntry) (e : UrlEntry) :
    ∀ x ∈ trackConvertedUrl urls e, x.userId = e.userId →
      ∀ y ∈ userUrlsAfterPush urls e, y ∉ trackConvertedUrl urls e →
        y.convertedAt ≤ x.convertedAt := by
  intro x hx hxid y hy hyn
  unfold trackConvertedUrl at hx hyn
  by_cases hcap : 1000 < (userUrlsAfterPush urls e).length
  · rw [if_pos hcap] at hx hyn
    have hxkeep : x ∈ (List.insertionSort moreRecent (userUrlsAfterPush urls e)).take 1000 := by
      rcases List.mem_append.mp hx with hxo | hxk
      · have hne : x.userId ≠ e.userId := by
          simpa [bne_iff_ne] using List.of_mem_filter hxo
        exact absurd hxid hne
      · exact hxk
    have hysort : y ∈ List.insertionSort moreRecent (userUrlsAfterPush urls e) :=
      (List.perm_insertionSort moreRecent _).mem_iff.mpr hy
    have hydrop : y ∈ (List.insertionSort moreRecent (userUrlsAfterPush urls e)).drop 1000 := by
      rcases List.mem_append.mp
          ((List.take_append_drop 1000
            (List.insertionSort moreRecent (userUrlsAfterPush urls e))) ▸ hysort) with h1 | h1
      · exact absurd (List.mem_append_right _ h1) hyn
      · exact h1
    have hsorted : List.Pairwise moreRecent
        (List.insertionSort moreRecent (userUrlsAfterPush urls e)) :=
      List.sorted_insertionSort moreRecent (userUrlsAfterPush urls e)
    rw [← List.take_append_drop 1000
      (List.insertionSort moreRecent (userUrlsAfterPush urls e))] at hsorted
    exact (List.pairwise_append.mp hsorted).2.2 x hxkeep y hydrop
  · rw [if_neg hcap] at hx hyn
    exact absurd (List.mem_of_mem_filter hy) hyn

/-- C10: after every trackConvertedUrl call the store holds at most one
entry per (user, URL) pair (provided it did before, as every store built
through trackConvertedUrl does), the tracked user holds at most 1000
entries, and when the cap evicts entries only the least recent ones of
that user are dropped. -/
theorem c10_track_invariants (urls : List UrlEntry) (e : UrlEntry)
    (hinv : DedupInvariant urls) :
    DedupInvariant (trackConvertedUrl urls e)
    ∧ userCount (trackConvertedUrl urls e) e.userId ≤ 1000
    ∧ (∀ x ∈ trackConvertedUrl urls e, x.userId = e.userId →
        ∀ y ∈ userUrlsAfterPush urls e, y ∉ trackConvertedUrl urls e →
          y.convertedAt ≤ x.convertedAt) :=
  ⟨trackKeepsDedup urls e hinv, trackUserCount urls e, trackRecency urls e⟩

/-- Witness for C10: a concrete one-entry store satisfies the dedup
invariant, and the invariants hold after tracking a further conversion. -/
theorem c10_track_invariants_witness :
    DedupInvariant c10Store
    ∧ (DedupInvariant (trackConvertedUrl c10Store c10Entry)
      ∧ userCount (trackConvertedUrl c10Store c10Entry) c10Entry.userId ≤ 1000
      ∧ (∀ x ∈ trackConvertedUrl c10Store c10Entry, x.userId = c10Entry.userId →
          ∀ y ∈ userUrlsAfterPush c10Store c10Entry,
            y ∉ trackConvertedUrl c10Store c10Entry →
              y.convertedAt ≤ x.convertedAt)) :=
  ⟨fun _ _ => (List.filter_sublist c10Store).length_le,
   c10_track_invariants c10Store c10Entry
     (fun _ _ => (List.filter_sublist c10Store).length_le)⟩

end LinkPub
